import Mathlib

/-!
# System monitor: the sampling and derived-metric engine

A shallow embedding of the counter arithmetic of `processes.cpp` (the per-process
table kept by `renderProcessesWindow`) and of `cpu.cpp` (`getCpuUsagePercent`).

Conventions of the embedding:

* `float` and `double` values are exact rationals (`ℚ`): rounding is abstracted away,
  except in `systemCpuPercentF32`, which rounds every operation to binary32 (`roundF32`)
  for the range of the system CPU percentage;
* `unsigned long long` values are naturals, reduced modulo `2 ^ 64` where the source can wrap;
* `long long` values are integers (signed overflow is undefined behaviour in the source);
* everything the program reads from the operating system (files under `/proc`, the clock,
  the widget results of the GUI library) is an explicit input of the step it is read in;
* static and global variables are fields of an explicit state that every call receives
  and returns.
-/

namespace SystemMonitor

/-! ## processes.cpp -/

/-- Modulus of `unsigned long long` arithmetic. -/
def ullMod : Nat := 2 ^ 64

/-- The record `struct ProcInfo`, with its default member initialisers. -/
structure ProcInfo where
  name : String := ""
  state : Char := '?'
  lastCpuTime : Nat := 0
  cpuPercent : ℚ := 0
  memPercent : ℚ := 0
  deriving DecidableEq

/-- The characters `fgets` stores after the first one was read: it stops after a newline
or when `n` characters are stored. -/
def fgetsLine : Nat → List Char → List Char
  | 0, _ => []
  | _, [] => []
  | n + 1, c :: cs => if c = '\n' then [c] else c :: fgetsLine n cs

/-- The call `fgets(buffer, size, file)` on a freshly opened file with the given contents:
`none` at end of file, otherwise the first line, cut to `size - 1` characters. -/
def fgets (size : Nat) (content : List Char) : Option (List Char) :=
  if content.isEmpty then none else some (fgetsLine (size - 1) content)

/-- The call `strchr(buffer, c)`: offset of the first occurrence of `c`. -/
def strchr (c : Char) : List Char → Option Nat
  | [] => none
  | x :: xs => if x = c then some 0 else (strchr c xs).map (· + 1)

/-- The call `strrchr(buffer, c)`: offset of the last occurrence of `c`. -/
def strrchr (c : Char) : List Char → Option Nat
  | [] => none
  | x :: xs =>
    match strrchr c xs with
    | some i => some (i + 1)
    | none => if x = c then some 0 else none

/-- Cut a character sequence at every space (empty pieces included). -/
def splitSpaces : List Char → List (List Char)
  | [] => [[]]
  | c :: cs =>
    if c = ' ' then [] :: splitSpaces cs
    else
      match splitSpaces cs with
      | [] => [[c]]
      | t :: ts => (c :: t) :: ts

/-- The successive tokens returned by `strtok_r(., " ", &saveptr)`: the maximal runs of
characters other than a space. -/
def strtokTokens (s : List Char) : List (List Char) :=
  (splitSpaces s).filter (fun t => !t.isEmpty)

/-- The characters `isspace` accepts in the C locale. -/
def isSpaceC (c : Char) : Bool :=
  c = ' ' || c = '\t' || c = '\n' || c = Char.ofNat 11 || c = Char.ofNat 12 || c = '\r'

/-- The call `strtoull(token, nullptr, 10)`: leading white space, an optional sign, then the
longest run of decimal digits; the value saturates at `ULLONG_MAX` and a minus sign negates
it modulo `2 ^ 64`. -/
def strtoull (token : List Char) : Nat :=
  let t := token.dropWhile isSpaceC
  let signed : Bool × List Char :=
    match t with
    | '-' :: r => (true, r)
    | '+' :: r => (false, r)
    | _ => (false, t)
  let v := (signed.2.takeWhile Char.isDigit).foldl (fun a c => a * 10 + (c.toNat - 48)) 0
  if ullMod ≤ v then ullMod - 1
  else if signed.1 then (ullMod - v) % ullMod
  else v

/-- The `while (token)` loop of `readProcessCpuTime`, from the token at position `index` on:
returns `(utime, stime)`. -/
def scanTimes : List (List Char) → Nat → Nat → Nat × Nat
  | [], _, utime => (utime, 0)
  | token :: rest, index, utime =>
    let utime1 := if index = 13 then strtoull token else utime
    if index = 14 then (utime1, strtoull token)
    else scanTimes rest (index + 1) utime1

/-- The function `readProcessCpuTime`. The argument is what `/proc/<pid>/stat` holds when
the function opens it: `none` when `fopen` fails. -/
def readProcessCpuTime (file : Option String) : Nat :=
  match file with
  | none => 0
  | some content =>
    match fgets 1024 content.toList with
    | none => 0
    | some buffer =>
      match strchr '(' buffer, strrchr ')' buffer with
      | some openParen, some closeParen =>
        if closeParen ≤ openParen then 0
        else
          let afterName := buffer.drop (closeParen + 2)
          let times := scanTimes (strtokTokens afterName) 0 0
          (times.1 + times.2) % ullMod
      | _, _ => 0

/-- The function `readTotalCpuTime`. The argument is `none` when `/proc/stat` cannot be
opened or read, and otherwise the numbers that `sscanf` converts from its first line, in
order (fewer than eight when the line is short or malformed). -/
def readTotalCpuTime (file : Option (List Nat)) : Nat :=
  match file with
  | none => 0
  | some fields =>
    if 8 ≤ fields.length then ((fields.take 8).map (· % ullMod)).sum % ullMod else 0

/-- The function `readProcessMemoryPercent`. The first argument is `none` when
`/proc/<pid>/status` cannot be opened, and otherwise the value scanned from its `VmRSS`
line (`0` when there is no such line); the second is
`sysconf(_SC_PHYS_PAGES) * sysconf(_SC_PAGE_SIZE) / 1024`. -/
def readProcessMemoryPercent (status : Option Nat) (totalMemKb : Int) : ℚ :=
  match status with
  | none => 0
  | some vmrss => if 0 < totalMemKb then (vmrss : ℚ) * 100 / (totalMemKb : ℚ) else 0

/-- The call `haystack.find(needle) != std::string::npos`. -/
def stringFind (haystack needle : List Char) : Bool :=
  haystack.tails.any (fun t => needle.isPrefixOf t)

/-- Lines 188 to 197 of `renderProcessesWindow`: `true` when the entry is kept, `false` when
the loop takes `continue`. -/
def passesFilter (name : String) (pid : Nat) (filter : String) : Bool :=
  let nameLower := name.toList.map Char.toLower
  let filterLower := filter.toList.map Char.toLower
  !(!filterLower.isEmpty && !stringFind nameLower filterLower &&
    !stringFind (Nat.toDigits 10 pid) filterLower)

/-- One numeric directory of `/proc` as the loop body meets it. -/
structure ProcEntry where
  /-- The value `atoi(entry->d_name)`. -/
  pid : Nat
  /-- The name after lines 164 to 175 (`"unknown"` when `comm` is unreadable). -/
  name : String
  /-- The state after lines 177 to 186 (`'?'` when `stat` is unreadable). -/
  state : Char
  /-- The contents of `/proc/<pid>/stat` given to `readProcessCpuTime`. -/
  stat : Option String
  /-- The input of `readProcessMemoryPercent`. -/
  status : Option Nat
  /-- What `ImGui::Selectable` returns for the row: whether it was clicked. -/
  clicked : Bool

/-- The values fixed at start-up: `cpuCount` and the total physical memory in kB. -/
structure SysConf where
  cpuCount : Int
  totalMemKb : Int

/-- The global and static state of `processes.cpp`. -/
structure ProcState where
  /-- The map `processesCpuData`: `none` for a pid without record. -/
  processesCpuData : Nat → Option ProcInfo
  /-- The set `selectedPids`. -/
  selectedPids : Nat → Bool
  lastTotalCpu : Nat
  lastSampleTime : ℚ

/-- The state at program start. -/
def ProcState.init : ProcState :=
  ⟨fun _ => none, fun _ => false, 0, 0⟩

/-- The inputs of one call of `renderProcessesWindow` (one poll). -/
structure Frame where
  /-- The result of `ImGui::Begin`. -/
  windowOpen : Bool
  /-- The contents of the filter box. -/
  filter : String
  /-- The input of `readTotalCpuTime`. -/
  procStat : Option (List Nat)
  /-- The result of `getTimeSeconds`. -/
  now : ℚ
  /-- Whether the tab bar, the tab item and the table begin and `/proc` opens. -/
  tableVisible : Bool
  /-- The numeric directories `readdir` returns, in order. -/
  entries : List ProcEntry

/-- One rendered table row. -/
structure Row where
  pid : Nat
  name : String
  state : Char
  cpuPercent : ℚ
  memPercent : ℚ
  isSelected : Bool
  deriving DecidableEq

/-- Line 143: `canCalculate`. -/
def canCalculate (lastSampleTime now : ℚ) : Bool :=
  decide (0 < lastSampleTime ∧ (1 : ℚ) / 2 ≤ now - lastSampleTime)

/-- Lines 201 and 205 to 209: the CPU percentage of one process. -/
def procCpuPercent (canCalc : Bool) (currCpu lastCpuTime totalCpu lastTotalCpu : Nat)
    (cpuCount : Int) : ℚ :=
  if canCalc = true ∧ lastCpuTime ≤ currCpu ∧ lastTotalCpu < totalCpu then
    let deltaProc := currCpu - lastCpuTime
    let deltaTotal := totalCpu - lastTotalCpu
    ((deltaProc : ℚ) / (deltaTotal : ℚ)) * 100 * (cpuCount : ℚ)
  else 0

/-- What the loop over `/proc` carries from one entry to the next. -/
structure LoopState where
  table : Nat → Option ProcInfo
  selected : Nat → Bool
  rows : List Row

/-- The record written at lines 213 to 218 for an entry, given the record found (or
default-constructed) by `processesCpuData[pid]`. -/
def newRecord (cfg : SysConf) (canCalc : Bool) (totalCpu lastTotalCpu : Nat)
    (old : Option ProcInfo) (e : ProcEntry) : ProcInfo :=
  let currCpu := readProcessCpuTime e.stat
  let procInfo := old.getD {}
  { name := e.name
    state := e.state
    cpuPercent := procCpuPercent canCalc currCpu procInfo.lastCpuTime totalCpu lastTotalCpu
      cfg.cpuCount
    memPercent := readProcessMemoryPercent e.status cfg.totalMemKb
    lastCpuTime := currCpu }

/-- The row drawn at lines 220 to 235 for an entry. -/
def newRow (cfg : SysConf) (canCalc : Bool) (totalCpu lastTotalCpu : Nat)
    (old : Option ProcInfo) (wasSelected : Bool) (e : ProcEntry) : Row :=
  let r := newRecord cfg canCalc totalCpu lastTotalCpu old e
  { pid := e.pid
    name := e.name
    state := e.state
    cpuPercent := r.cpuPercent
    memPercent := r.memPercent
    isSelected := wasSelected }

/-- The body of the `while ((entry = readdir(proc)))` loop, lines 162 to 235. -/
def loopBody (cfg : SysConf) (canCalc : Bool) (totalCpu lastTotalCpu : Nat) (filter : String)
    (acc : LoopState) (e : ProcEntry) : LoopState :=
  if passesFilter e.name e.pid filter then
    let old := acc.table e.pid
    let isSelected := acc.selected e.pid
    { table := Function.update acc.table e.pid
        (some (newRecord cfg canCalc totalCpu lastTotalCpu old e))
      selected :=
        if e.clicked then Function.update acc.selected e.pid (!isSelected) else acc.selected
      rows := acc.rows ++ [newRow cfg canCalc totalCpu lastTotalCpu old isSelected e] }
  else acc

/-- The function `renderProcessesWindow`: one poll. Returns the new state and the rows
drawn. -/
def renderProcessesWindow (cfg : SysConf) (s : ProcState) (f : Frame) :
    ProcState × List Row :=
  if f.windowOpen then
    let totalCpu := readTotalCpuTime f.procStat
    let canCalc := canCalculate s.lastSampleTime f.now
    let start : LoopState := ⟨s.processesCpuData, s.selectedPids, []⟩
    let done :=
      if f.tableVisible then
        f.entries.foldl (loopBody cfg canCalc totalCpu s.lastTotalCpu f.filter) start
      else start
    (⟨done.table, done.selected, totalCpu, f.now⟩, done.rows)
  else (s, [])

/-- The state after a sequence of polls. -/
def runPolls (cfg : SysConf) (s : ProcState) (fs : List Frame) : ProcState :=
  fs.foldl (fun st f => (renderProcessesWindow cfg st f).1) s

/-! ## cpu.cpp -/

/-- The struct `CPUStats` of `header.h`, restricted to the fields `cpu.cpp` reads. -/
structure CPUStats where
  user : Int := 0
  nice : Int := 0
  system : Int := 0
  idle : Int := 0
  iowait : Int := 0
  irq : Int := 0
  softirq : Int := 0
  steal : Int := 0

/-- The static locals `lastIdle` and `lastTotal` of `getCpuUsagePercent`. -/
structure CpuState where
  lastIdle : Int := 0
  lastTotal : Int := 0
  deriving DecidableEq

/-- Line 63: `idle`. -/
def CPUStats.idleTime (stat : CPUStats) : Int := stat.idle + stat.iowait

/-- Line 64: `nonIdle`. -/
def CPUStats.nonIdle (stat : CPUStats) : Int :=
  stat.user + stat.nice + stat.system + stat.irq + stat.softirq + stat.steal

/-- Line 65: `total`. -/
def CPUStats.total (stat : CPUStats) : Int := stat.idleTime + stat.nonIdle

/-- Lines 67 to 79 of `getCpuUsagePercent`, as a function of the previous and the current
idle and total counters, with the exact value of the quotient (`systemCpuPercentF32` is the
same computation with binary32 rounding). -/
def systemCpuPercent (prevIdle prevTotal currIdle currTotal : Int) : ℚ :=
  let deltaTotal := currTotal - prevTotal
  let deltaIdle := currIdle - prevIdle
  if deltaTotal = 0 then 0
  else 100 * ((deltaTotal - deltaIdle : Int) : ℚ) / (deltaTotal : ℚ)

/-- The Linux branch of `getCpuUsagePercent`. The second argument is `none` when
`/proc/stat` cannot be opened, and otherwise the counters read from it. -/
def getCpuUsagePercent (s : CpuState) (file : Option CPUStats) : ℚ × CpuState :=
  match file with
  | none => (0, s)
  | some stat =>
    let idle := stat.idleTime
    let total := stat.total
    (systemCpuPercent s.lastIdle s.lastTotal idle total, ⟨idle, total⟩)

/-! ## History buffers: cpu.cpp, fan.cpp, thermals.cpp -/

/-- The constant `maxSamples`, which is 100 in `cpu.cpp`, in `fan.cpp` and in
`thermals.cpp`. -/
def maxSamples : Nat := 100

/-- The statements under `if (!pause...)` in the three tabs: `push_back(value)`, then
`pop_front()` when the size exceeds `maxSamples`. -/
def pushSample (history : List ℚ) (value : ℚ) : List ℚ :=
  let pushed := history ++ [value]
  if maxSamples < pushed.length then pushed.tail else pushed

/-- The call `ImGui::Checkbox("Pause", &pause)`: a click inverts the flag. -/
def checkbox (pause clicked : Bool) : Bool :=
  if clicked then !pause else pause

/-- The static state of the CPU tab: `pauseCPU`, `cpuUsageHistory`, and the static locals
of `getCpuUsagePercent`. The sliders (`fpsCPU`, `yScaleCPU`) only feed the drawing. -/
structure CpuTab where
  pauseCPU : Bool := false
  cpuUsageHistory : List ℚ := []
  counters : CpuState := {}

/-- The inputs of one call of `renderCpuTab`: whether the pause box is clicked, and what
`/proc/stat` holds. -/
structure CpuTabFrame where
  pauseClicked : Bool
  procStat : Option CPUStats

/-- The function `renderCpuTab`: one frame. Returns the new state, the vector `values`
copied from the history, and the value printed after `Current:`. -/
def renderCpuTab (t : CpuTab) (f : CpuTabFrame) : CpuTab × List ℚ × ℚ :=
  let pause := checkbox t.pauseCPU f.pauseClicked
  let updated : List ℚ × CpuState :=
    if pause then (t.cpuUsageHistory, t.counters)
    else
      let usage := getCpuUsagePercent t.counters f.procStat
      (pushSample t.cpuUsageHistory usage.1, usage.2)
  let values := updated.1
  (⟨pause, updated.1, updated.2⟩, values,
    if updated.1.isEmpty then 0 else updated.1.getLastD 0)

/-- The struct `FanInfo` of `fan.h`. -/
structure FanInfo where
  active : Bool
  speedRPM : Int
  level : Int

/-- The static state of the fan tab: `pauseFan` and `fanSpeedHistory`. -/
structure FanTab where
  pauseFan : Bool := false
  fanSpeedHistory : List ℚ := []

/-- The inputs of one call of `renderFanTab`: the result of `getFanInfo` and whether the
pause box is clicked. -/
structure FanTabFrame where
  fan : FanInfo
  pauseClicked : Bool

/-- The function `renderFanTab` (Linux): one frame. Returns the new state and, when the
history is not empty, the plotted vector with the value printed as current speed. -/
def renderFanTab (t : FanTab) (f : FanTabFrame) : FanTab × Option (List ℚ × ℚ) :=
  let pause := checkbox t.pauseFan f.pauseClicked
  let history :=
    if pause then t.fanSpeedHistory else pushSample t.fanSpeedHistory (f.fan.speedRPM : ℚ)
  (⟨pause, history⟩, if history.isEmpty then none else some (history, history.getLastD 0))

/-- The static state of the thermal tab: `pauseThermal` and `thermalHistory`. -/
structure ThermalTab where
  pauseThermal : Bool := false
  thermalHistory : List ℚ := []

/-- The inputs of one call of `renderThermalTab`: the result of `readTemperatureC` and
whether the pause box is clicked. -/
structure ThermalTabFrame where
  currentTemp : ℚ
  pauseClicked : Bool

/-- The function `renderThermalTab` (Linux): one frame. Returns the new state and, when the
history is not empty, the plotted vector with the value printed as latest. -/
def renderThermalTab (t : ThermalTab) (f : ThermalTabFrame) :
    ThermalTab × Option (List ℚ × ℚ) :=
  let pause := checkbox t.pauseThermal f.pauseClicked
  let history :=
    if pause then t.thermalHistory else pushSample t.thermalHistory f.currentTemp
  (⟨pause, history⟩, if history.isEmpty then none else some (history, history.getLastD 0))

/-- The state of the CPU tab after a sequence of frames. -/
def runCpuTab (t : CpuTab) (fs : List CpuTabFrame) : CpuTab :=
  fs.foldl (fun st f => (renderCpuTab st f).1) t

/-- The state of the fan tab after a sequence of frames. -/
def runFanTab (t : FanTab) (fs : List FanTabFrame) : FanTab :=
  fs.foldl (fun st f => (renderFanTab st f).1) t

/-- The state of the thermal tab after a sequence of frames. -/
def runThermalTab (t : ThermalTab) (fs : List ThermalTabFrame) : ThermalTab :=
  fs.foldl (fun st f => (renderThermalTab st f).1) t

/-- The values returned by successive calls of `getCpuUsagePercent`, one per reading of
`/proc/stat`, starting from the given static locals. -/
def cpuUsageSeries : CpuState → List (Option CPUStats) → List ℚ
  | _, [] => []
  | s, file :: rest =>
    (getCpuUsagePercent s file).1 :: cpuUsageSeries (getCpuUsagePercent s file).2 rest

/-! ## network-receiver-transmitter.cpp -/

/-- What `getMemoryUsageMB` reads, by platform branch. Linux: the entries `MemTotal` and
`MemAvailable` of the map filled from `/proc/meminfo` (0 for a missing key). Windows: the
fields `ullTotalPhys` and `ullAvailPhys`, or `none` when `GlobalMemoryStatusEx` fails.
macOS: `physical_memory`, and the counts `active`, `inactive`, `wire` with the page size, or
`none` when `host_statistics64` fails. -/
inductive MemSource where
  | linux (memTotal memAvailable : Int)
  | windows (status : Option (Nat × Nat))
  | apple (physicalMemory : Int) (vmStats : Option (Int × Int × Int × Int))
  | unsupported

/-- The function `getMemoryUsageMB`: the pair `(usedMB, totalMB)`. -/
def getMemoryUsageMB : MemSource → ℚ × ℚ
  | .linux memTotal memAvailable =>
    let totalMB : ℚ := (memTotal : ℚ) / 1024
    let usedMB : ℚ := ((memTotal - memAvailable : Int) : ℚ) / 1024
    (usedMB, totalMB)
  | .windows (some (totalPhys, availPhys)) =>
    let totalMB : ℚ := (totalPhys : ℚ) / (1024 * 1024)
    let usedMB : ℚ := (((totalPhys + ullMod - availPhys) % ullMod : Nat) : ℚ) / (1024 * 1024)
    (usedMB, totalMB)
  | .windows none => (0, 0)
  | .apple physicalMemory (some (active, inactive, wire, pageSize)) =>
    let used : Int := (active + inactive + wire) * pageSize
    let totalMB : ℚ := (physicalMemory : ℚ) / (1024 * 1024)
    let usedMB : ℚ := (used : ℚ) / (1024 * 1024)
    (usedMB, totalMB)
  | .apple _ none => (0, 0)
  | .unsupported => (-1, -1)

/-- What `renderRAMWindow` draws. -/
inductive RamView where
  /-- The window is collapsed: nothing is read. -/
  | collapsed
  /-- The text `This OS is not currently supported for RAM monitoring.` -/
  | notSupported
  /-- The progress bar with `ramPercent`, and the text with `usedMB`, `totalMB` and
  `ramPercent * 100`. -/
  | usage (ramPercent usedMB totalMB percentShown : ℚ)
  deriving DecidableEq

/-- The function `renderRAMWindow`, on the result of `ImGui::Begin` and the memory
source. -/
def renderRAMWindow (windowOpen : Bool) (source : MemSource) : RamView :=
  if windowOpen then
    let mem := getMemoryUsageMB source
    let usedMB := mem.1
    let totalMB := mem.2
    if usedMB < 0 ∨ totalMB ≤ 0 then RamView.notSupported
    else
      let ramPercent := usedMB / totalMB
      RamView.usage ramPercent usedMB totalMB (ramPercent * 100)
  else RamView.collapsed

/-! ## swap.cpp -/

/-- The struct `SwapStats`. -/
structure SwapStats where
  usedMB : ℚ := 0
  totalMB : ℚ := 0
  errorMessage : String := ""
  deriving DecidableEq

/-- What `getSwapInfo` reads, by platform branch. Linux: `none` when `/proc/meminfo` cannot
be opened, otherwise the entries `SwapTotal` and `SwapFree` of the map. Windows:
`ullTotalPageFile` and `ullAvailPageFile`, or `none` on failure. macOS: `pageouts` and the
page size, or `none` on failure. -/
inductive SwapSource where
  | linux (meminfo : Option (Int × Int))
  | windows (status : Option (Nat × Nat))
  | apple (vmStats : Option (Int × Int))
  | unsupported

/-- The function `getSwapInfo`. -/
def getSwapInfo : SwapSource → SwapStats
  | .linux none => ⟨0, 0, "Failed to open /proc/meminfo"⟩
  | .linux (some (swapTotal, swapFree)) =>
    ⟨((swapTotal - swapFree : Int) : ℚ) / 1024, (swapTotal : ℚ) / 1024, ""⟩
  | .windows (some (totalPageFile, availPageFile)) =>
    let totalMB : ℚ := (totalPageFile : ℚ) / (1024 * 1024)
    let availMB : ℚ := (availPageFile : ℚ) / (1024 * 1024)
    ⟨totalMB - availMB, totalMB, ""⟩
  | .windows none => ⟨0, 0, "Failed to get Windows memory status"⟩
  | .apple (some (pageouts, pageSize)) =>
    ⟨((pageouts * pageSize : Int) : ℚ) / (1024 * 1024), 0, ""⟩
  | .apple none => ⟨0, 0, "Failed to get macOS vm statistics"⟩
  | .unsupported => ⟨0, 0, "Swap monitoring is not supported on this OS."⟩

/-- What `renderSwapWindow` draws. -/
inductive SwapView where
  /-- The window is collapsed. -/
  | collapsed
  /-- The error message, in red. -/
  | error (message : String)
  /-- The text `Swap Used: ... MB (Total swap unknown)`. -/
  | usedOnly (usedMB : ℚ)
  /-- The progress bar with `swapPercent`, and the text with `usedMB`, `totalMB` and
  `swapPercent * 100`. -/
  | usage (swapPercent usedMB totalMB percentShown : ℚ)
  deriving DecidableEq

/-- The function `renderSwapWindow`, on the result of `ImGui::Begin` and the result of
`getSwapInfo`. -/
def renderSwapWindow (windowOpen : Bool) (swap : SwapStats) : SwapView :=
  if windowOpen then
    if !swap.errorMessage.isEmpty then SwapView.error swap.errorMessage
    else if swap.totalMB ≤ 0 then SwapView.usedOnly swap.usedMB
    else
      let swapPercent : ℚ := if 0 < swap.totalMB then swap.usedMB / swap.totalMB else 0
      SwapView.usage swapPercent swap.usedMB swap.totalMB (swapPercent * 100)
  else SwapView.collapsed

/-! ## disk.cpp -/

/-- A `float` division. The value `none` stands for the result of a division by zero
(NaN or an infinity), which no rational models. -/
def floatDiv (a b : ℚ) : Option ℚ :=
  if b = 0 then none else some (a / b)

/-- What `renderDiskWindow` reads, by platform branch, or `none` when the system call
fails. Windows: `totalBytes` and `freeBytes` of `GetDiskFreeSpaceExW`. macOS and Linux:
the block counts `f_blocks`, `f_bfree`, `f_bavail` and the block size of `statfs` and
`statvfs`. -/
inductive DiskSource where
  | windows (stats : Option (Nat × Nat))
  | apple (stats : Option (Nat × Nat × Nat × Nat))
  | linux (stats : Option (Nat × Nat × Nat × Nat))
  | unsupported

/-- What `renderDiskWindow` draws. -/
inductive DiskView where
  /-- The window is collapsed. -/
  | collapsed
  /-- The text `Failed to get disk stats`. -/
  | failed
  /-- The text `This OS is not currently supported for disk usage monitoring.` -/
  | notSupported
  /-- The progress bar with `usedPercent`, and the texts with the sizes in GB. -/
  | usage (usedPercent : Option ℚ) (usedGB totalGB availGB : ℚ)
  deriving DecidableEq

/-- The number of bytes in a GB, `1024.0f * 1024.0f * 1024.0f`. -/
def bytesPerGB : ℚ := 1024 * 1024 * 1024

/-- Lines 48 to 56 and 67 to 76 of `renderDiskWindow`: the macOS and the Linux branch
compute the same way from the block counts and the block size. -/
def diskUsageFromBlocks (blocks bfree bavail blockSize : Nat) : DiskView :=
  let total := (blocks * blockSize) % ullMod
  let free := (bfree * blockSize) % ullMod
  let available := (bavail * blockSize) % ullMod
  let used := (total + ullMod - free) % ullMod
  let usedPercent : Option ℚ :=
    if 0 < (used + available) % ullMod then
      floatDiv (used : ℚ) (((used + available) % ullMod : Nat) : ℚ)
    else some 0
  DiskView.usage usedPercent ((used : ℚ) / bytesPerGB) ((total : ℚ) / bytesPerGB)
    ((available : ℚ) / bytesPerGB)

/-- The function `renderDiskWindow`, on the result of `ImGui::Begin` and the disk
source. -/
def renderDiskWindow (windowOpen : Bool) (source : DiskSource) : DiskView :=
  if windowOpen then
    match source with
    | .windows (some (total, free)) =>
      let used := (total + ullMod - free) % ullMod
      DiskView.usage (floatDiv (used : ℚ) (total : ℚ)) ((used : ℚ) / bytesPerGB)
        ((total : ℚ) / bytesPerGB) ((free : ℚ) / bytesPerGB)
    | .windows none => DiskView.failed
    | .apple (some (blocks, bfree, bavail, bsize)) =>
      diskUsageFromBlocks blocks bfree bavail bsize
    | .apple none => DiskView.failed
    | .linux (some (blocks, bfree, bavail, frsize)) =>
      diskUsageFromBlocks blocks bfree bavail frsize
    | .linux none => DiskView.failed
    | .unsupported => DiskView.notSupported
  else DiskView.collapsed

/-! ## system.cpp -/

/-- Round to the nearest integer, ties to the even one. -/
def roundHalfEven (q : ℚ) : ℤ :=
  if q - ⌊q⌋ < 1 / 2 then ⌊q⌋
  else if 1 / 2 < q - ⌊q⌋ then ⌊q⌋ + 1
  else if ⌊q⌋ % 2 = 0 then ⌊q⌋ else ⌊q⌋ + 1

/-- The binary32 value nearest to `x`: 24 significant bits, ties to even. The exponent
range is not modelled; the values `getCpuUsagePercent` meets for 64-bit counters stay in
the normal range. -/
def roundF32 (x : ℚ) : ℚ :=
  if x = 0 then 0
  else if 0 < x then (roundHalfEven (x / 2 ^ (Int.log 2 x - 23)) : ℚ) * 2 ^ (Int.log 2 x - 23)
  else -((roundHalfEven (-x / 2 ^ (Int.log 2 (-x) - 23)) : ℚ) * 2 ^ (Int.log 2 (-x) - 23))


/-- Lines 67 to 79 of `getCpuUsagePercent` with the `float` arithmetic of line 79 rounded as
the machine does it: the two `long long` values are converted to binary32, and the product
with `100.0f` and the quotient are each rounded to binary32. -/
def systemCpuPercentF32 (prevIdle prevTotal currIdle currTotal : Int) : ℚ :=
  let deltaTotal := currTotal - prevTotal
  let deltaIdle := currIdle - prevIdle
  if deltaTotal = 0 then 0
  else
    roundF32 (roundF32 (100 * roundF32 ((deltaTotal - deltaIdle : Int) : ℚ))
      / roundF32 ((deltaTotal : Int) : ℚ))

/-! ## Concrete inputs used by the examples -/

/-- An eight-core machine with 16 GB of memory. -/
def exampleConf : SysConf := ⟨8, 16000000⟩

/-- A `stat` line of pid 42 whose process times add up to 500 ticks. -/
def stat500 : String :=
  "42 (cat) S 1 42 42 0 -1 4194304 100 0 0 0 300 200 300 200 20 0 1 0 100 1000 10\n"

/-- A `stat` line of pid 42 whose process times add up to 700 ticks. -/
def stat700 : String :=
  "42 (cat) S 1 42 42 0 -1 4194304 100 0 0 0 400 300 400 300 20 0 1 0 100 1000 10\n"

/-- A `stat` line of pid 42 whose process times add up to 720 ticks. -/
def stat720 : String :=
  "42 (cat) S 1 42 42 0 -1 4194304 100 0 0 0 400 320 400 320 20 0 1 0 100 1000 10\n"

/-- A `stat` line of pid 42 with `utime = 300` and `stime = 200` (fields 14 and 15) and
with `cutime = 7` and `cstime = 5` (fields 16 and 17). -/
def statOwnAndChildren : String :=
  "42 (cat) S 1 42 42 0 -1 4194304 100 0 0 0 300 200 7 5 20 0 1 0 100 1000 10\n"

/-- The directory entry of pid 42 (`cat`) with the given `stat` contents. -/
def catEntry (stat : Option String) : ProcEntry :=
  ⟨42, "cat", 'S', stat, some 0, false⟩

/-- A poll with the window and the table shown, at time `now`, with the system total
`total` and the given filter and listing. -/
def shownFrame (filter : String) (total : Nat) (now : ℚ) (entries : List ProcEntry) : Frame :=
  ⟨true, filter, some [total, 0, 0, 0, 0, 0, 0, 0], now, true, entries⟩

/-- A table whose only record is that of pid 42 (`cat`), with the given baseline and
percentage. -/
def catTable (lastCpuTime : Nat) (cpuPercent : ℚ) : Nat → Option ProcInfo :=
  fun p => if p = 42 then some ⟨"cat", 'S', lastCpuTime, cpuPercent, 0⟩ else none

/-- Whether the poll reaches the loop over `/proc`. -/
def Frame.shown (f : Frame) : Prop := f.windowOpen = true ∧ f.tableVisible = true

/-- The same poll with another text in the filter box. -/
def Frame.withFilter (f : Frame) (filter : String) : Frame :=
  { f with filter := filter }

/-- The listing of the poll has pairwise distinct pids. -/
def Frame.distinctPids (f : Frame) : Prop := (f.entries.map ProcEntry.pid).Nodup

instance (f : Frame) : Decidable f.shown := by unfold Frame.shown; infer_instance

instance (f : Frame) : Decidable f.distinctPids := by unfold Frame.distinctPids; infer_instance

/-! ## The loop over `/proc`: what one poll does to the table and to the rows -/

theorem loopBody_table_other (cfg : SysConf) (canCalc : Bool) (totalCpu lastTotalCpu : Nat)
    (filter : String) (acc : LoopState) (e : ProcEntry) (p : Nat) (hp : e.pid ≠ p) :
    (loopBody cfg canCalc totalCpu lastTotalCpu filter acc e).table p = acc.table p := by
  unfold loopBody
  split
  · simp [Function.update_noteq (Ne.symm hp)]
  · rfl

theorem loopBody_selected_other (cfg : SysConf) (canCalc : Bool) (totalCpu lastTotalCpu : Nat)
    (filter : String) (acc : LoopState) (e : ProcEntry) (p : Nat) (hp : e.pid ≠ p) :
    (loopBody cfg canCalc totalCpu lastTotalCpu filter acc e).selected p = acc.selected p := by
  unfold loopBody
  split
  · by_cases hc : e.clicked = true
    · simp [hc, Function.update_noteq (Ne.symm hp)]
    · simp [hc]
  · rfl

theorem loopBody_of_hidden (cfg : SysConf) (canCalc : Bool) (totalCpu lastTotalCpu : Nat)
    (filter : String) (acc : LoopState) (e : ProcEntry)
    (h : passesFilter e.name e.pid filter = false) :
    loopBody cfg canCalc totalCpu lastTotalCpu filter acc e = acc := by
  simp [loopBody, h]

/-- A pid that no kept entry of the listing carries keeps its record through the loop. -/
theorem foldl_loopBody_table_untouched (cfg : SysConf) (canCalc : Bool)
    (totalCpu lastTotalCpu : Nat) (filter : String) (p : Nat) (es : List ProcEntry) :
    ∀ acc : LoopState,
      (∀ e ∈ es, passesFilter e.name e.pid filter = true → e.pid ≠ p) →
      (es.foldl (loopBody cfg canCalc totalCpu lastTotalCpu filter) acc).table p
        = acc.table p := by
  induction es with
  | nil => intro acc _; rfl
  | cons x xs ih =>
    intro acc h
    rw [List.foldl_cons, ih _ (fun e he => h e (List.mem_cons_of_mem _ he))]
    by_cases hx : passesFilter x.name x.pid filter = true
    · exact loopBody_table_other _ _ _ _ _ _ _ _ (h x (List.mem_cons_self _ _) hx)
    · rw [loopBody_of_hidden _ _ _ _ _ _ _ (by simpa using hx)]

/-- In a listing with distinct pids, the record of a kept entry after the loop is the one
written for it from the record the table held when the loop started. -/
theorem foldl_loopBody_table_written (cfg : SysConf) (canCalc : Bool)
    (totalCpu lastTotalCpu : Nat) (filter : String) (es : List ProcEntry) :
    ∀ acc : LoopState, (es.map ProcEntry.pid).Nodup →
      ∀ e ∈ es, passesFilter e.name e.pid filter = true →
      (es.foldl (loopBody cfg canCalc totalCpu lastTotalCpu filter) acc).table e.pid
        = some (newRecord cfg canCalc totalCpu lastTotalCpu (acc.table e.pid) e) := by
  induction es with
  | nil => intro acc _ e he; cases he
  | cons x xs ih =>
    intro acc hnd e he hp
    rw [List.map_cons, List.nodup_cons] at hnd
    rw [List.foldl_cons]
    rcases List.mem_cons.1 he with rfl | hmem
    · rw [foldl_loopBody_table_untouched]
      · simp [loopBody, hp]
      · intro y hy _ hpid
        exact hnd.1 (List.mem_map.2 ⟨y, hy, hpid⟩)
    · have hne : x.pid ≠ e.pid := fun hpid => hnd.1 (List.mem_map.2 ⟨e, hmem, hpid.symm⟩)
      rw [ih _ hnd.2 e hmem hp, loopBody_table_other _ _ _ _ _ _ _ _ hne]

/-- In a listing with distinct pids, the rows drawn are those of the kept entries, in
order, each computed from the record and the selection the loop started with. -/
theorem foldl_loopBody_rows (cfg : SysConf) (canCalc : Bool)
    (totalCpu lastTotalCpu : Nat) (filter : String) (es : List ProcEntry) :
    ∀ acc : LoopState, (es.map ProcEntry.pid).Nodup →
      (es.foldl (loopBody cfg canCalc totalCpu lastTotalCpu filter) acc).rows
        = acc.rows ++ (es.filter (fun e => passesFilter e.name e.pid filter)).map
            (fun e => newRow cfg canCalc totalCpu lastTotalCpu (acc.table e.pid)
              (acc.selected e.pid) e) := by
  induction es with
  | nil => intro acc _; simp
  | cons x xs ih =>
    intro acc hnd
    rw [List.map_cons, List.nodup_cons] at hnd
    rw [List.foldl_cons, ih _ hnd.2]
    have hrest : ∀ e ∈ xs, x.pid ≠ e.pid :=
      fun e he hpid => hnd.1 (List.mem_map.2 ⟨e, he, hpid.symm⟩)
    have hmap : (xs.filter (fun e => passesFilter e.name e.pid filter)).map
          (fun e => newRow cfg canCalc totalCpu lastTotalCpu
            ((loopBody cfg canCalc totalCpu lastTotalCpu filter acc x).table e.pid)
            ((loopBody cfg canCalc totalCpu lastTotalCpu filter acc x).selected e.pid) e)
        = (xs.filter (fun e => passesFilter e.name e.pid filter)).map
          (fun e => newRow cfg canCalc totalCpu lastTotalCpu (acc.table e.pid)
            (acc.selected e.pid) e) := by
      apply List.map_congr_left
      intro e he
      have hne := hrest e (List.mem_filter.1 he).1
      rw [loopBody_table_other _ _ _ _ _ _ _ _ hne, loopBody_selected_other _ _ _ _ _ _ _ _ hne]
    rw [hmap]
    by_cases hx : passesFilter x.name x.pid filter = true
    · simp [loopBody, hx, List.filter_cons]
    · simp [loopBody, hx, List.filter_cons]

/-! ## One poll -/

theorem poll_lastSampleTime (cfg : SysConf) (s : ProcState) (f : Frame)
    (ho : f.windowOpen = true) :
    (renderProcessesWindow cfg s f).1.lastSampleTime = f.now := by
  simp [renderProcessesWindow, ho]

theorem poll_lastTotalCpu (cfg : SysConf) (s : ProcState) (f : Frame)
    (ho : f.windowOpen = true) :
    (renderProcessesWindow cfg s f).1.lastTotalCpu = readTotalCpuTime f.procStat := by
  simp [renderProcessesWindow, ho]

/-- A poll leaves the record of every pid alone that no kept entry of its listing carries. -/
theorem poll_table_untouched (cfg : SysConf) (s : ProcState) (f : Frame) (p : Nat)
    (h : ∀ e ∈ f.entries, passesFilter e.name e.pid f.filter = true → e.pid ≠ p) :
    (renderProcessesWindow cfg s f).1.processesCpuData p = s.processesCpuData p := by
  unfold renderProcessesWindow
  by_cases ho : f.windowOpen = true
  · by_cases hv : f.tableVisible = true
    · simp only [ho, hv, if_true]
      exact foldl_loopBody_table_untouched _ _ _ _ _ _ _ _ h
    · simp [ho, hv]
  · simp [ho]

/-- The record a poll writes for a kept entry of a listing with distinct pids. -/
theorem poll_table_written (cfg : SysConf) (s : ProcState) (f : Frame) (e : ProcEntry)
    (hs : f.shown) (hnd : f.distinctPids) (he : e ∈ f.entries)
    (hp : passesFilter e.name e.pid f.filter = true) :
    (renderProcessesWindow cfg s f).1.processesCpuData e.pid
      = some (newRecord cfg (canCalculate s.lastSampleTime f.now)
          (readTotalCpuTime f.procStat) s.lastTotalCpu (s.processesCpuData e.pid) e) := by
  unfold renderProcessesWindow
  simp only [hs.1, hs.2, if_true]
  exact foldl_loopBody_table_written _ _ _ _ _ _ _ hnd e he hp

/-- The rows a poll draws for a listing with distinct pids. -/
theorem poll_rows (cfg : SysConf) (s : ProcState) (f : Frame)
    (hs : f.shown) (hnd : f.distinctPids) :
    (renderProcessesWindow cfg s f).2
      = (f.entries.filter (fun e => passesFilter e.name e.pid f.filter)).map
          (fun e => newRow cfg (canCalculate s.lastSampleTime f.now)
            (readTotalCpuTime f.procStat) s.lastTotalCpu (s.processesCpuData e.pid)
            (s.selectedPids e.pid) e) := by
  unfold renderProcessesWindow
  simp only [hs.1, hs.2, if_true]
  rw [foldl_loopBody_rows _ _ _ _ _ _ _ hnd]
  simp

/-- The row of a kept entry is drawn, and it is the only row with that pid. -/
theorem poll_row_of_entry (cfg : SysConf) (s : ProcState) (f : Frame) (e : ProcEntry)
    (hs : f.shown) (hnd : f.distinctPids) (he : e ∈ f.entries)
    (hp : passesFilter e.name e.pid f.filter = true) :
    newRow cfg (canCalculate s.lastSampleTime f.now) (readTotalCpuTime f.procStat)
        s.lastTotalCpu (s.processesCpuData e.pid) (s.selectedPids e.pid) e
      ∈ (renderProcessesWindow cfg s f).2 ∧
    ∀ row ∈ (renderProcessesWindow cfg s f).2, row.pid = e.pid →
      row = newRow cfg (canCalculate s.lastSampleTime f.now) (readTotalCpuTime f.procStat)
        s.lastTotalCpu (s.processesCpuData e.pid) (s.selectedPids e.pid) e := by
  rw [poll_rows cfg s f hs hnd]
  constructor
  · exact List.mem_map.2 ⟨e, List.mem_filter.2 ⟨he, hp⟩, rfl⟩
  · intro row hrow hpid
    obtain ⟨x, hx, rfl⟩ := List.mem_map.1 hrow
    have hxe : x = e :=
      List.inj_on_of_nodup_map hnd (List.mem_filter.1 hx).1 he hpid
    rw [hxe]

/-- The loop draws no row for a pid that no kept entry carries. -/
theorem foldl_loopBody_no_row (cfg : SysConf) (canCalc : Bool)
    (totalCpu lastTotalCpu : Nat) (filter : String) (p : Nat) (es : List ProcEntry) :
    ∀ acc : LoopState,
      (∀ e ∈ es, passesFilter e.name e.pid filter = true → e.pid ≠ p) →
      (∀ row ∈ acc.rows, row.pid ≠ p) →
      ∀ row ∈ (es.foldl (loopBody cfg canCalc totalCpu lastTotalCpu filter) acc).rows,
        row.pid ≠ p := by
  induction es with
  | nil => intro acc _ hacc; simpa using hacc
  | cons x xs ih =>
    intro acc hes hacc
    rw [List.foldl_cons]
    apply ih _ (fun e he => hes e (List.mem_cons_of_mem _ he))
    by_cases hx : passesFilter x.name x.pid filter = true
    · intro row hrow
      simp only [loopBody, hx, if_true, List.mem_append, List.mem_singleton] at hrow
      rcases hrow with hrow | rfl
      · exact hacc row hrow
      · exact hes x (List.mem_cons_self _ _) hx
    · rw [loopBody_of_hidden _ _ _ _ _ _ _ (by simpa using hx)]
      exact hacc

/-- A poll draws no row for a pid that no kept entry carries. -/
theorem poll_no_row (cfg : SysConf) (s : ProcState) (f : Frame) (p : Nat)
    (h : ∀ e ∈ f.entries, passesFilter e.name e.pid f.filter = true → e.pid ≠ p) :
    ∀ row ∈ (renderProcessesWindow cfg s f).2, row.pid ≠ p := by
  unfold renderProcessesWindow
  by_cases ho : f.windowOpen = true
  · by_cases hv : f.tableVisible = true
    · simp only [ho, hv, if_true]
      exact foldl_loopBody_no_row _ _ _ _ _ _ _ _ h (by simp)
    · simp [ho, hv]
  · simp [ho]

/-- A sequence of polls none of which lists the pid leaves its record alone. -/
theorem runPolls_table_untouched (cfg : SysConf) (p : Nat) (fs : List Frame) :
    ∀ s : ProcState, (∀ f ∈ fs, ∀ e ∈ f.entries, e.pid ≠ p) →
      (runPolls cfg s fs).processesCpuData p = s.processesCpuData p := by
  induction fs with
  | nil => intro s _; rfl
  | cons g gs ih =>
    intro s h
    have hstep : runPolls cfg s (g :: gs) = runPolls cfg (renderProcessesWindow cfg s g).1 gs :=
      rfl
    rw [hstep, ih _ (fun f hf => h f (List.mem_cons_of_mem _ hf))]
    exact poll_table_untouched cfg s g p
      (fun e he _ => h g (List.mem_cons_self _ _) e he)

/-- The percentage of a process whose tick count reads `0`. -/
theorem procCpuPercent_zero_ticks (canCalc : Bool) (lastCpuTime totalCpu lastTotalCpu : Nat)
    (cpuCount : Int) :
    procCpuPercent canCalc 0 lastCpuTime totalCpu lastTotalCpu cpuCount = 0 := by
  unfold procCpuPercent
  split
  · simp
  · rfl

@[simp] theorem readProcessCpuTime_stat500 : readProcessCpuTime (some stat500) = 500 := by
  decide

@[simp] theorem readProcessCpuTime_stat700 : readProcessCpuTime (some stat700) = 700 := by
  decide

/-! ## The claims about the process table -/

/-- C1, evaluated at a failing input. Pid 42 is hidden by the filter `zzz` in the first poll
(time 1, system total 1000), so the table holds no record for it; in the second poll (time
2, system total 2000, empty filter) it is listed with 700 ticks. Its percentage, stored and
shown, is `700 / 1000 * 100 * 8 = 560` and not `0.0`: the record that
`processesCpuData[pid]` default-constructs has `lastCpuTime = 0`, and the delta is taken
against it. -/
theorem new_pid_percent_from_default_baseline :
    (renderProcessesWindow exampleConf ProcState.init
        (shownFrame "zzz" 1000 1 [catEntry (some stat500)])).1.processesCpuData 42 = none ∧
    ((renderProcessesWindow exampleConf
        (renderProcessesWindow exampleConf ProcState.init
          (shownFrame "zzz" 1000 1 [catEntry (some stat500)])).1
        (shownFrame "" 2000 2 [catEntry (some stat700)])).1.processesCpuData 42).map
      ProcInfo.cpuPercent = some 560 ∧
    (renderProcessesWindow exampleConf
        (renderProcessesWindow exampleConf ProcState.init
          (shownFrame "zzz" 1000 1 [catEntry (some stat500)])).1
        (shownFrame "" 2000 2 [catEntry (some stat700)])).2.map Row.cpuPercent = [560] := by
  have hz : passesFilter "cat" 42 "zzz" = false := by decide
  have he : passesFilter "cat" 42 "" = true := by decide
  refine ⟨?_, ?_, ?_⟩
  · simp [renderProcessesWindow, shownFrame, catEntry, loopBody, hz, ProcState.init]
  · simp [renderProcessesWindow, shownFrame, catEntry, loopBody, newRecord, hz, he,
      ProcState.init, canCalculate, procCpuPercent, readTotalCpuTime, exampleConf, ullMod]
    norm_num
  · simp [renderProcessesWindow, shownFrame, catEntry, loopBody, newRow, newRecord, hz, he,
      ProcState.init, canCalculate, procCpuPercent, readTotalCpuTime, exampleConf, ullMod]
    norm_num

/-- C2, evaluated at a failing input. Pid 42 is polled at time 1 (500 ticks, system total
1000) and at time 2 (700 ticks, system total 2000), where its percentage is recomputed to
160. A poll 0.1 s later (time 21/10, system total 2100, 720 ticks) cannot recompute, and it
stores and shows `0.0`: the percentage of the last recomputation is overwritten, not
reused. -/
theorem percent_reset_between_recomputations :
    ((runPolls exampleConf ProcState.init
        [shownFrame "" 1000 1 [catEntry (some stat500)],
         shownFrame "" 2000 2 [catEntry (some stat700)]]).processesCpuData 42).map
      ProcInfo.cpuPercent = some 160 ∧
    canCalculate (runPolls exampleConf ProcState.init
        [shownFrame "" 1000 1 [catEntry (some stat500)],
         shownFrame "" 2000 2 [catEntry (some stat700)]]).lastSampleTime (21 / 10) = false ∧
    ((renderProcessesWindow exampleConf (runPolls exampleConf ProcState.init
        [shownFrame "" 1000 1 [catEntry (some stat500)],
         shownFrame "" 2000 2 [catEntry (some stat700)]])
        (shownFrame "" 2100 (21 / 10) [catEntry (some stat720)])).1.processesCpuData 42).map
      ProcInfo.cpuPercent = some 0 ∧
    (renderProcessesWindow exampleConf (runPolls exampleConf ProcState.init
        [shownFrame "" 1000 1 [catEntry (some stat500)],
         shownFrame "" 2000 2 [catEntry (some stat700)]])
        (shownFrame "" 2100 (21 / 10) [catEntry (some stat720)])).2.map Row.cpuPercent
      = [0] := by
  have he : passesFilter "cat" 42 "" = true := by decide
  have hlast : (runPolls exampleConf ProcState.init
        [shownFrame "" 1000 1 [catEntry (some stat500)],
         shownFrame "" 2000 2 [catEntry (some stat700)]]).lastSampleTime = 2 := by
    simp [runPolls, renderProcessesWindow, shownFrame]
  have hc : canCalculate 2 (21 / 10) = false := by
    simp [canCalculate]; norm_num
  have hc1 : canCalculate 0 1 = false := by simp [canCalculate]
  have hc2 : canCalculate 1 2 = true := by simp [canCalculate]; norm_num
  refine ⟨?_, ?_, ?_, ?_⟩
  · simp [runPolls, renderProcessesWindow, shownFrame, catEntry, loopBody, newRecord, he,
      ProcState.init, hc1, hc2, procCpuPercent, readTotalCpuTime, exampleConf, ullMod]
    norm_num
  · rw [hlast]; exact hc
  · have hw := poll_table_written exampleConf (runPolls exampleConf ProcState.init
        [shownFrame "" 1000 1 [catEntry (some stat500)],
         shownFrame "" 2000 2 [catEntry (some stat700)]])
      (shownFrame "" 2100 (21 / 10) [catEntry (some stat720)]) (catEntry (some stat720))
      (by decide) (by decide) (by simp [shownFrame]) he
    have hpid : (catEntry (some stat720)).pid = 42 := rfl
    rw [hpid] at hw
    rw [hw, hlast]
    simp [shownFrame, newRecord, hc, procCpuPercent]
  · rw [poll_rows exampleConf _ _ (by decide) (by decide), hlast]
    simp [shownFrame, catEntry, he, newRow, newRecord, hc, procCpuPercent]

/-- Every poll that draws the window restarts the interval: the poll after it recomputes
only if it comes at least 0.5 s later, whenever the last recomputation was. -/
theorem no_recomputation_within_half_second_of_a_poll (cfg : SysConf) (s : ProcState)
    (f : Frame) (now : ℚ) (ho : f.windowOpen = true) (h : now - f.now < 1 / 2) :
    canCalculate (renderProcessesWindow cfg s f).1.lastSampleTime now = false := by
  rw [poll_lastSampleTime cfg s f ho]
  simp only [canCalculate, decide_eq_false_iff_not, not_and, not_le]
  intro _
  exact h

/-- C3, evaluated at a failing input. Polls at times 1 and 2 (the second one recomputes),
then every 0.1 s up to 2.4, with the system total growing by 100 per poll. At time 2.5, half
a second after the last recomputation, the stored sample time is 2.4 and the poll does not
recompute: pid 42 went from 500 to 700 ticks and is shown with `0.0`. -/
theorem polls_every_tenth_never_recompute :
    canCalculate (runPolls exampleConf ProcState.init
      [shownFrame "" 1000 1 [catEntry (some stat500)]]).lastSampleTime 2 = true ∧
    (runPolls exampleConf ProcState.init
      [shownFrame "" 1000 1 [catEntry (some stat500)],
       shownFrame "" 2000 2 [catEntry (some stat500)],
       shownFrame "" 2100 (21 / 10) [catEntry (some stat500)],
       shownFrame "" 2200 (22 / 10) [catEntry (some stat500)],
       shownFrame "" 2300 (23 / 10) [catEntry (some stat500)],
       shownFrame "" 2400 (24 / 10) [catEntry (some stat500)]]).lastSampleTime = 24 / 10 ∧
    canCalculate (runPolls exampleConf ProcState.init
      [shownFrame "" 1000 1 [catEntry (some stat500)],
       shownFrame "" 2000 2 [catEntry (some stat500)],
       shownFrame "" 2100 (21 / 10) [catEntry (some stat500)],
       shownFrame "" 2200 (22 / 10) [catEntry (some stat500)],
       shownFrame "" 2300 (23 / 10) [catEntry (some stat500)],
       shownFrame "" 2400 (24 / 10) [catEntry (some stat500)]]).lastSampleTime (25 / 10)
      = false ∧
    (renderProcessesWindow exampleConf (runPolls exampleConf ProcState.init
      [shownFrame "" 1000 1 [catEntry (some stat500)],
       shownFrame "" 2000 2 [catEntry (some stat500)],
       shownFrame "" 2100 (21 / 10) [catEntry (some stat500)],
       shownFrame "" 2200 (22 / 10) [catEntry (some stat500)],
       shownFrame "" 2300 (23 / 10) [catEntry (some stat500)],
       shownFrame "" 2400 (24 / 10) [catEntry (some stat500)]])
      (shownFrame "" 2500 (25 / 10) [catEntry (some stat700)])).2.map Row.cpuPercent
      = [0] := by
  have he : passesFilter "cat" 42 "" = true := by decide
  have hlast : (runPolls exampleConf ProcState.init
      [shownFrame "" 1000 1 [catEntry (some stat500)],
       shownFrame "" 2000 2 [catEntry (some stat500)],
       shownFrame "" 2100 (21 / 10) [catEntry (some stat500)],
       shownFrame "" 2200 (22 / 10) [catEntry (some stat500)],
       shownFrame "" 2300 (23 / 10) [catEntry (some stat500)],
       shownFrame "" 2400 (24 / 10) [catEntry (some stat500)]]).lastSampleTime = 24 / 10 := by
    simp [runPolls, renderProcessesWindow, shownFrame]
  have hc : canCalculate (24 / 10) (25 / 10) = false := by
    simp [canCalculate]; norm_num
  refine ⟨?_, hlast, ?_, ?_⟩
  · simp [runPolls, renderProcessesWindow, shownFrame, canCalculate]; norm_num
  · rw [hlast]; exact hc
  · have hrows := poll_rows exampleConf (runPolls exampleConf ProcState.init
      [shownFrame "" 1000 1 [catEntry (some stat500)],
       shownFrame "" 2000 2 [catEntry (some stat500)],
       shownFrame "" 2100 (21 / 10) [catEntry (some stat500)],
       shownFrame "" 2200 (22 / 10) [catEntry (some stat500)],
       shownFrame "" 2300 (23 / 10) [catEntry (some stat500)],
       shownFrame "" 2400 (24 / 10) [catEntry (some stat500)]])
      (shownFrame "" 2500 (25 / 10) [catEntry (some stat700)]) (by decide) (by decide)
    rw [hrows, hlast]
    simp [shownFrame, catEntry, he, newRow, newRecord, hc, procCpuPercent]

/-- The percentage a poll computes for a kept entry of a listing with distinct pids: it is
stored in the record, a row is drawn for the pid, and every row of the pid shows it. -/
theorem poll_percent_of_entry (cfg : SysConf) (s : ProcState) (f : Frame) (e : ProcEntry)
    (hs : f.shown) (hnd : f.distinctPids) (he : e ∈ f.entries)
    (hp : passesFilter e.name e.pid f.filter = true) :
    ((renderProcessesWindow cfg s f).1.processesCpuData e.pid).map ProcInfo.cpuPercent
      = some (procCpuPercent (canCalculate s.lastSampleTime f.now) (readProcessCpuTime e.stat)
          ((s.processesCpuData e.pid).getD {}).lastCpuTime (readTotalCpuTime f.procStat)
          s.lastTotalCpu cfg.cpuCount) ∧
    (∃ row ∈ (renderProcessesWindow cfg s f).2, row.pid = e.pid) ∧
    ∀ row ∈ (renderProcessesWindow cfg s f).2, row.pid = e.pid →
      row.cpuPercent = procCpuPercent (canCalculate s.lastSampleTime f.now)
        (readProcessCpuTime e.stat) ((s.processesCpuData e.pid).getD {}).lastCpuTime
        (readTotalCpuTime f.procStat) s.lastTotalCpu cfg.cpuCount := by
  have hrow := poll_row_of_entry cfg s f e hs hnd he hp
  refine ⟨?_, ⟨_, hrow.1, rfl⟩, ?_⟩
  · rw [poll_table_written cfg s f e hs hnd he hp]
    rfl
  · intro row hmem hpid
    rw [hrow.2 row hmem hpid]
    rfl

/-- C4, refuted as stated. Pid 42 has the baseline 500 and is listed with 700 ticks. After
the poll under the empty filter its stored `lastCpuTime` is 700; after the same poll under
the filter `zzz`, which hides it, it is still 500. -/
theorem hidden_pid_baseline_not_updated :
    (shownFrame "" 2000 2 [catEntry (some stat700)]).withFilter "zzz"
      = shownFrame "zzz" 2000 2 [catEntry (some stat700)] ∧
    ((renderProcessesWindow exampleConf ⟨catTable 500 0, fun _ => false, 1000, 1⟩
        (shownFrame "" 2000 2 [catEntry (some stat700)])).1.processesCpuData 42).map
      ProcInfo.lastCpuTime = some 700 ∧
    ((renderProcessesWindow exampleConf ⟨catTable 500 0, fun _ => false, 1000, 1⟩
        (shownFrame "zzz" 2000 2 [catEntry (some stat700)])).1.processesCpuData 42).map
      ProcInfo.lastCpuTime = some 500 := by
  have hz : passesFilter "cat" 42 "zzz" = false := by decide
  have he : passesFilter "cat" 42 "" = true := by decide
  refine ⟨rfl, ?_, ?_⟩
  · simp [renderProcessesWindow, shownFrame, catEntry, loopBody, newRecord, he]
  · simp [renderProcessesWindow, shownFrame, catEntry, loopBody, hz, catTable]

/-- C4, amended. For a poll that draws the table, with distinct pids in the listing, and
for any two filter texts: a listed pid that passes both filters has the same stored
`lastCpuTime` after the poll under either filter, namely the tick count read in the poll;
a listed pid that a filter hides keeps, under that filter, the record it had before the
poll. -/
theorem stored_ticks_under_two_filters (cfg : SysConf) (s : ProcState) (f : Frame)
    (filter1 filter2 : String) (e : ProcEntry)
    (hs : f.shown) (hnd : f.distinctPids) (he : e ∈ f.entries) :
    (passesFilter e.name e.pid filter1 = true → passesFilter e.name e.pid filter2 = true →
      ((renderProcessesWindow cfg s (f.withFilter filter1)).1.processesCpuData e.pid).map
          ProcInfo.lastCpuTime = some (readProcessCpuTime e.stat) ∧
      ((renderProcessesWindow cfg s (f.withFilter filter2)).1.processesCpuData e.pid).map
          ProcInfo.lastCpuTime = some (readProcessCpuTime e.stat)) ∧
    (passesFilter e.name e.pid filter1 = false →
      (renderProcessesWindow cfg s (f.withFilter filter1)).1.processesCpuData e.pid
        = s.processesCpuData e.pid) := by
  have written : ∀ flt : String, passesFilter e.name e.pid flt = true →
      ((renderProcessesWindow cfg s (f.withFilter flt)).1.processesCpuData e.pid).map
          ProcInfo.lastCpuTime = some (readProcessCpuTime e.stat) := by
    intro flt hp
    rw [poll_table_written cfg s (f.withFilter flt) e hs hnd he hp]
    rfl
  refine ⟨fun h1 h2 => ⟨written filter1 h1, written filter2 h2⟩, ?_⟩
  intro hhidden
  apply poll_table_untouched
  intro x hx hpx hpid
  have hxe : x = e := List.inj_on_of_nodup_map hnd hx he hpid
  rw [hxe] at hpx
  have hf : (f.withFilter filter1).filter = filter1 := rfl
  rw [hf, hhidden] at hpx
  cases hpx

/-- C4, amended, at a concrete poll: pid 42 (`cat`, baseline 500, now 700 ticks) under the
filters `ca` and `42`, which both keep it, and under `zzz`, which hides it. -/
theorem stored_ticks_under_two_filters_witness :
    (((renderProcessesWindow exampleConf ⟨catTable 500 0, fun _ => false, 1000, 1⟩
          ((shownFrame "" 2000 2 [catEntry (some stat700)]).withFilter "ca")).1.processesCpuData
        42).map ProcInfo.lastCpuTime = some 700 ∧
      ((renderProcessesWindow exampleConf ⟨catTable 500 0, fun _ => false, 1000, 1⟩
          ((shownFrame "" 2000 2 [catEntry (some stat700)]).withFilter "42")).1.processesCpuData
        42).map ProcInfo.lastCpuTime = some 700) ∧
    (renderProcessesWindow exampleConf ⟨catTable 500 0, fun _ => false, 1000, 1⟩
          ((shownFrame "" 2000 2 [catEntry (some stat700)]).withFilter "zzz")).1.processesCpuData
        42 = catTable 500 0 42 := by
  have h1 := stored_ticks_under_two_filters exampleConf
    ⟨catTable 500 0, fun _ => false, 1000, 1⟩ (shownFrame "" 2000 2 [catEntry (some stat700)])
    "ca" "42" (catEntry (some stat700)) (by decide) (by decide) (by simp [shownFrame])
  have h2 := stored_ticks_under_two_filters exampleConf
    ⟨catTable 500 0, fun _ => false, 1000, 1⟩ (shownFrame "" 2000 2 [catEntry (some stat700)])
    "zzz" "" (catEntry (some stat700)) (by decide) (by decide) (by simp [shownFrame])
  have hpid : (catEntry (some stat700)).pid = 42 := rfl
  have hstat : readProcessCpuTime (catEntry (some stat700)).stat = 700 :=
    readProcessCpuTime_stat700
  have r1 := h1.1 (by decide) (by decide)
  have r2 := h2.2 (by decide)
  rw [hpid, hstat] at r1
  rw [hpid] at r2
  exact ⟨r1, r2⟩

/-- C5, refuted as stated. Pid 42 is polled at time 1 with 500 ticks, is missing from the
listing at time 2, and is listed again at time 3 with 700 ticks (the system total grows by
1000 per poll). At time 3 the record written at time 1 is still in the table, and the
percentage is `(700 - 500) / 1000 * 100 * 8 = 160`, not `0.0`; had the pid been polled with
700 ticks at time 1, it would be `0`. -/
theorem reappearing_pid_continues_old_baseline :
    ((runPolls exampleConf ProcState.init
        [shownFrame "" 1000 1 [catEntry (some stat500)],
         shownFrame "" 2000 2 []]).processesCpuData 42).map ProcInfo.lastCpuTime
      = some 500 ∧
    ((renderProcessesWindow exampleConf (runPolls exampleConf ProcState.init
        [shownFrame "" 1000 1 [catEntry (some stat500)], shownFrame "" 2000 2 []])
        (shownFrame "" 3000 3 [catEntry (some stat700)])).1.processesCpuData 42).map
      ProcInfo.cpuPercent = some 160 ∧
    ((renderProcessesWindow exampleConf (runPolls exampleConf ProcState.init
        [shownFrame "" 1000 1 [catEntry (some stat700)], shownFrame "" 2000 2 []])
        (shownFrame "" 3000 3 [catEntry (some stat700)])).1.processesCpuData 42).map
      ProcInfo.cpuPercent = some 0 := by
  have he : passesFilter "cat" 42 "" = true := by decide
  have hc1 : canCalculate 0 1 = false := by simp [canCalculate]
  have hc2 : canCalculate 2 3 = true := by simp [canCalculate]; norm_num
  refine ⟨?_, ?_, ?_⟩
  · simp [runPolls, renderProcessesWindow, shownFrame, catEntry, loopBody, newRecord, he]
  · simp [runPolls, renderProcessesWindow, shownFrame, catEntry, loopBody, newRecord, he,
      ProcState.init, hc1, hc2, procCpuPercent, readTotalCpuTime, exampleConf, ullMod]
    norm_num
  · simp [runPolls, renderProcessesWindow, shownFrame, catEntry, loopBody, newRecord, he,
      ProcState.init, hc1, hc2, procCpuPercent, readTotalCpuTime, exampleConf, ullMod]

/-- C5, amended. A pid is listed and kept in poll A, missing from the listing of every poll
of a later run B, and listed and kept again in the poll C after B. Then the record written
at poll A is still the one in the table at poll C (no record is ever dropped), and the
percentage stored and shown at C is computed against the tick count stored at A: it is
that of `procCpuPercent` for the ticks of C, the ticks of A as baseline, and the sample time
and system total left by B. -/
theorem reappearing_pid_percent (cfg : SysConf) (s : ProcState) (fA : Frame)
    (fBs : List Frame) (fC : Frame) (eA eC : ProcEntry)
    (hsA : fA.shown) (hndA : fA.distinctPids) (heA : eA ∈ fA.entries)
    (hpA : passesFilter eA.name eA.pid fA.filter = true)
    (hB : ∀ f ∈ fBs, ∀ e ∈ f.entries, e.pid ≠ eA.pid)
    (hsC : fC.shown) (hndC : fC.distinctPids) (heC : eC ∈ fC.entries)
    (hpC : passesFilter eC.name eC.pid fC.filter = true) (hpid : eC.pid = eA.pid) :
    ((runPolls cfg s (fA :: fBs)).processesCpuData eA.pid).map ProcInfo.lastCpuTime
      = some (readProcessCpuTime eA.stat) ∧
    ((renderProcessesWindow cfg (runPolls cfg s (fA :: fBs)) fC).1.processesCpuData
        eA.pid).map ProcInfo.cpuPercent
      = some (procCpuPercent (canCalculate (runPolls cfg s (fA :: fBs)).lastSampleTime fC.now)
          (readProcessCpuTime eC.stat) (readProcessCpuTime eA.stat)
          (readTotalCpuTime fC.procStat) (runPolls cfg s (fA :: fBs)).lastTotalCpu
          cfg.cpuCount) ∧
    ∀ row ∈ (renderProcessesWindow cfg (runPolls cfg s (fA :: fBs)) fC).2,
      row.pid = eA.pid →
      row.cpuPercent
        = procCpuPercent (canCalculate (runPolls cfg s (fA :: fBs)).lastSampleTime fC.now)
          (readProcessCpuTime eC.stat) (readProcessCpuTime eA.stat)
          (readTotalCpuTime fC.procStat) (runPolls cfg s (fA :: fBs)).lastTotalCpu
          cfg.cpuCount := by
  have hstep : runPolls cfg s (fA :: fBs)
      = runPolls cfg (renderProcessesWindow cfg s fA).1 fBs := rfl
  have hrec : (runPolls cfg s (fA :: fBs)).processesCpuData eA.pid
      = some (newRecord cfg (canCalculate s.lastSampleTime fA.now)
          (readTotalCpuTime fA.procStat) s.lastTotalCpu (s.processesCpuData eA.pid) eA) := by
    rw [hstep, runPolls_table_untouched cfg eA.pid fBs _ hB,
      poll_table_written cfg s fA eA hsA hndA heA hpA]
  have hC := poll_percent_of_entry cfg (runPolls cfg s (fA :: fBs)) fC eC hsC hndC heC hpC
  rw [hpid, hrec] at hC
  refine ⟨?_, hC.1, hC.2.2⟩
  rw [hrec]
  rfl

/-- C5, amended, at the polls of the counterexample: pid 42 with 500 ticks at time 1,
missing at time 2, back with 700 ticks at time 3. -/
theorem reappearing_pid_percent_witness :
    ((renderProcessesWindow exampleConf (runPolls exampleConf ProcState.init
        [shownFrame "" 1000 1 [catEntry (some stat500)], shownFrame "" 2000 2 []])
        (shownFrame "" 3000 3 [catEntry (some stat700)])).1.processesCpuData 42).map
      ProcInfo.cpuPercent = some (procCpuPercent true 700 500 3000 2000 8) ∧
    procCpuPercent true 700 500 3000 2000 8 = 160 := by
  have h := (reappearing_pid_percent exampleConf ProcState.init
    (shownFrame "" 1000 1 [catEntry (some stat500)]) [shownFrame "" 2000 2 []]
    (shownFrame "" 3000 3 [catEntry (some stat700)])
    (catEntry (some stat500)) (catEntry (some stat700))
    (by decide) (by decide) (by simp [shownFrame]) (by decide)
    (by simp [shownFrame]) (by decide) (by decide) (by simp [shownFrame]) (by decide)
    rfl).2.1
  have hpid : (catEntry (some stat500)).pid = 42 := rfl
  have h5 : readProcessCpuTime (catEntry (some stat500)).stat = 500 :=
    readProcessCpuTime_stat500
  have h7 : readProcessCpuTime (catEntry (some stat700)).stat = 700 :=
    readProcessCpuTime_stat700
  have hlast : (runPolls exampleConf ProcState.init
      [shownFrame "" 1000 1 [catEntry (some stat500)],
        shownFrame "" 2000 2 []]).lastSampleTime = 2 := by
    simp [runPolls, renderProcessesWindow, shownFrame]
  have htot : (runPolls exampleConf ProcState.init
      [shownFrame "" 1000 1 [catEntry (some stat500)],
        shownFrame "" 2000 2 []]).lastTotalCpu = 2000 := by
    simp [runPolls, renderProcessesWindow, shownFrame, readTotalCpuTime, ullMod]
  have hc : canCalculate 2 3 = true := by simp [canCalculate]; norm_num
  have ht : readTotalCpuTime (shownFrame "" 3000 3 [catEntry (some stat700)]).procStat
      = 3000 := by
    simp [shownFrame, readTotalCpuTime, ullMod]
  have hn : (shownFrame "" 3000 3 [catEntry (some stat700)]).now = 3 := rfl
  have hcc : exampleConf.cpuCount = 8 := rfl
  rw [hpid, h5, h7, hlast, htot, hn, hc, ht, hcc] at h
  refine ⟨h, ?_⟩
  simp [procCpuPercent]
  norm_num

/-- The percentage of a process with a usable baseline when recomputation is allowed. -/
theorem procCpuPercent_of_baseline (curr last total lastTotal : Nat) (cpuCount : Int)
    (hle : last ≤ curr) :
    procCpuPercent true curr last total lastTotal cpuCount
      = if total ≤ lastTotal then 0
        else ((curr : ℚ) - (last : ℚ)) / ((total : ℚ) - (lastTotal : ℚ)) * 100
          * (cpuCount : ℚ) := by
  unfold procCpuPercent
  by_cases h : total ≤ lastTotal
  · simp [h, Nat.not_lt.2 h]
  · have hlt : lastTotal < total := Nat.lt_of_not_le h
    simp [h, hle, hlt, Nat.cast_sub hle, Nat.cast_sub hlt.le]

/-- C6, refuted as stated. Pid 42 has the baseline 500 and 700 ticks now, one second after
the last sample, and `/proc/stat` cannot be read, so that `totalCpu = 0` against
`lastTotalCpu = 1000`. The delta `totalCpu - lastTotalCpu` is not zero (it is `-1000`, or
`2 ^ 64 - 1000` as an unsigned value), and the quotient formula gives a non-zero value
for either reading, but the code stores `0.0`. -/
theorem percent_zero_when_total_goes_back :
    canCalculate 1 2 = true ∧
    readTotalCpuTime none = 0 ∧
    ((renderProcessesWindow exampleConf ⟨catTable 500 0, fun _ => false, 1000, 1⟩
        ⟨true, "", none, 2, true, [catEntry (some stat700)]⟩).1.processesCpuData 42).map
      ProcInfo.cpuPercent = some 0 ∧
    ((readTotalCpuTime none : ℤ) - 1000 ≠ 0) ∧
    ((700 - 500 : ℚ) / ((readTotalCpuTime none : ℚ) - 1000) * 100 * 8 = -160) ∧
    ((700 - 500 : ℚ) / (((readTotalCpuTime none + ullMod - 1000) % ullMod : ℕ) : ℚ) * 100 * 8
      ≠ 0) := by
  have he : passesFilter "cat" 42 "" = true := by decide
  have hc : canCalculate 1 2 = true := by simp [canCalculate]; norm_num
  refine ⟨hc, rfl, ?_, ?_, ?_, ?_⟩
  · simp [renderProcessesWindow, catEntry, loopBody, newRecord, he, hc, procCpuPercent,
      readTotalCpuTime]
  · simp [readTotalCpuTime]
  · simp [readTotalCpuTime]; norm_num
  · simp [readTotalCpuTime, ullMod]
    norm_num

/-- C6, amended. For a pid with a prior record, listed and kept in a poll that draws the
table, when recomputation is allowed (a previous sample time exists and at least 0.5 s
have elapsed) and `currCpuTicks >= lastCpuTicks`: the percentage stored and shown is `0.0`
if `totalCpu <= lastTotalCpu` (no system delta, or a total that went back), and otherwise
`(currCpuTicks - lastCpuTicks) / (totalCpu - lastTotalCpu) * 100 * cpuCount` as an exact
rational. -/
theorem percent_with_baseline (cfg : SysConf) (s : ProcState) (f : Frame) (e : ProcEntry)
    (r : ProcInfo) (hs : f.shown) (hnd : f.distinctPids) (he : e ∈ f.entries)
    (hp : passesFilter e.name e.pid f.filter = true)
    (hr : s.processesCpuData e.pid = some r)
    (hbase : 0 < s.lastSampleTime) (hdt : 1 / 2 ≤ f.now - s.lastSampleTime)
    (hle : r.lastCpuTime ≤ readProcessCpuTime e.stat) :
    ((renderProcessesWindow cfg s f).1.processesCpuData e.pid).map ProcInfo.cpuPercent
      = some (if readTotalCpuTime f.procStat ≤ s.lastTotalCpu then 0
          else ((readProcessCpuTime e.stat : ℚ) - (r.lastCpuTime : ℚ))
            / ((readTotalCpuTime f.procStat : ℚ) - (s.lastTotalCpu : ℚ)) * 100
            * (cfg.cpuCount : ℚ)) ∧
    (∃ row ∈ (renderProcessesWindow cfg s f).2, row.pid = e.pid) ∧
    ∀ row ∈ (renderProcessesWindow cfg s f).2, row.pid = e.pid →
      row.cpuPercent
        = if readTotalCpuTime f.procStat ≤ s.lastTotalCpu then 0
          else ((readProcessCpuTime e.stat : ℚ) - (r.lastCpuTime : ℚ))
            / ((readTotalCpuTime f.procStat : ℚ) - (s.lastTotalCpu : ℚ)) * 100
            * (cfg.cpuCount : ℚ) := by
  have hc : canCalculate s.lastSampleTime f.now = true := by
    unfold canCalculate
    exact decide_eq_true ⟨hbase, hdt⟩
  have h := poll_percent_of_entry cfg s f e hs hnd he hp
  rw [hr, hc] at h
  have hget : ((some r : Option ProcInfo).getD {}).lastCpuTime = r.lastCpuTime := rfl
  rw [hget, procCpuPercent_of_baseline _ _ _ _ _ hle] at h
  exact h

/-- C6, amended, at the example of the specification: baseline 500, now 700 ticks, a system
delta of 1000 on eight cores give 160. -/
theorem percent_with_baseline_witness :
    ((renderProcessesWindow exampleConf ⟨catTable 500 0, fun _ => false, 1000, 1⟩
        (shownFrame "" 2000 2 [catEntry (some stat700)])).1.processesCpuData 42).map
      ProcInfo.cpuPercent = some 160 := by
  have h := (percent_with_baseline exampleConf ⟨catTable 500 0, fun _ => false, 1000, 1⟩
    (shownFrame "" 2000 2 [catEntry (some stat700)]) (catEntry (some stat700))
    ⟨"cat", 'S', 500, 0, 0⟩ (by decide) (by decide) (by simp [shownFrame]) (by decide)
    rfl (by norm_num) (by norm_num [shownFrame])
    (by rw [show readProcessCpuTime (catEntry (some stat700)).stat = 700 from
      readProcessCpuTime_stat700]; decide)).1
  have hpid : (catEntry (some stat700)).pid = 42 := rfl
  have h7 : readProcessCpuTime (catEntry (some stat700)).stat = 700 :=
    readProcessCpuTime_stat700
  have ht : readTotalCpuTime (shownFrame "" 2000 2 [catEntry (some stat700)]).procStat
      = 2000 := by
    simp [shownFrame, readTotalCpuTime, ullMod]
  rw [hpid, h7, ht] at h
  rw [h]
  norm_num [exampleConf]

/-- C7. In a poll that draws the table, with distinct pids in the listing, a listed and kept
pid whose tick count is strictly below the `lastCpuTime` of its record gets the percentage
`0.0`: that value is stored in the record, a row is drawn for the pid, and every row of
the pid shows it. -/
theorem percent_zero_when_ticks_go_back (cfg : SysConf) (s : ProcState) (f : Frame)
    (e : ProcEntry) (r : ProcInfo) (hs : f.shown) (hnd : f.distinctPids)
    (he : e ∈ f.entries) (hp : passesFilter e.name e.pid f.filter = true)
    (hr : s.processesCpuData e.pid = some r)
    (hlt : readProcessCpuTime e.stat < r.lastCpuTime) :
    ((renderProcessesWindow cfg s f).1.processesCpuData e.pid).map ProcInfo.cpuPercent
      = some 0 ∧
    (∃ row ∈ (renderProcessesWindow cfg s f).2, row.pid = e.pid) ∧
    ∀ row ∈ (renderProcessesWindow cfg s f).2, row.pid = e.pid → row.cpuPercent = 0 := by
  have h := poll_percent_of_entry cfg s f e hs hnd he hp
  have hz : procCpuPercent (canCalculate s.lastSampleTime f.now) (readProcessCpuTime e.stat)
      ((s.processesCpuData e.pid).getD {}).lastCpuTime (readTotalCpuTime f.procStat)
      s.lastTotalCpu cfg.cpuCount = 0 := by
    rw [hr]
    unfold procCpuPercent
    rw [if_neg]
    intro hcond
    exact absurd hcond.2.1 (Nat.not_le.2 hlt)
  rw [hz] at h
  exact h

/-- C7 at a concrete poll: pid 42 has the baseline 700 and is listed with 500 ticks, one
second after the last sample and with a system delta of 1000. -/
theorem percent_zero_when_ticks_go_back_witness :
    ((renderProcessesWindow exampleConf ⟨catTable 700 160, fun _ => false, 1000, 1⟩
        (shownFrame "" 2000 2 [catEntry (some stat500)])).1.processesCpuData 42).map
      ProcInfo.cpuPercent = some 0 ∧
    ∀ row ∈ (renderProcessesWindow exampleConf ⟨catTable 700 160, fun _ => false, 1000, 1⟩
        (shownFrame "" 2000 2 [catEntry (some stat500)])).2, row.pid = 42 →
      row.cpuPercent = 0 := by
  have h := percent_zero_when_ticks_go_back exampleConf
    ⟨catTable 700 160, fun _ => false, 1000, 1⟩
    (shownFrame "" 2000 2 [catEntry (some stat500)]) (catEntry (some stat500))
    ⟨"cat", 'S', 700, 160, 0⟩ (by decide) (by decide) (by simp [shownFrame]) (by decide)
    rfl (by rw [show readProcessCpuTime (catEntry (some stat500)).stat = 500 from
      readProcessCpuTime_stat500]; decide)
  exact ⟨h.1, h.2.2⟩

/-- C8, refuted as stated. Pid 42 has the baseline 500 and its `stat` file cannot be opened
in the poll. The poll still draws a row for it, with `0.0` as percentage, and writes its
record with `lastCpuTime = 0` and `cpuPercent = 0.0`. -/
theorem unreadable_stat_recorded_as_zero :
    readProcessCpuTime (catEntry none).stat = 0 ∧
    (renderProcessesWindow exampleConf ⟨catTable 500 160, fun _ => false, 1000, 1⟩
        (shownFrame "" 2000 2 [catEntry none])).2 = [⟨42, "cat", 'S', 0, 0, false⟩] ∧
    (renderProcessesWindow exampleConf ⟨catTable 500 160, fun _ => false, 1000, 1⟩
        (shownFrame "" 2000 2 [catEntry none])).1.processesCpuData 42
      = some ⟨"cat", 'S', 0, 0, 0⟩ := by
  have he : passesFilter "cat" 42 "" = true := by decide
  refine ⟨rfl, ?_, ?_⟩
  · simp [renderProcessesWindow, shownFrame, catEntry, loopBody, newRow, newRecord, he,
      readProcessCpuTime, procCpuPercent_zero_ticks, readProcessMemoryPercent]
  · simp [renderProcessesWindow, shownFrame, catEntry, loopBody, newRecord, he,
      readProcessCpuTime, procCpuPercent_zero_ticks, readProcessMemoryPercent]

/-- C8, amended. When `/proc/<pid>/stat` cannot be opened, or nothing can be read from it,
`readProcessCpuTime` returns `0` and the poll goes on with that tick count: for a listed
and kept pid (table drawn, distinct pids) the record is written with `lastCpuTime = 0` and
`cpuPercent = 0.0`, a row is drawn for the pid, and every row of the pid shows `0.0`. -/
theorem unreadable_stat_read_as_zero_ticks (cfg : SysConf) (s : ProcState) (f : Frame)
    (e : ProcEntry) (hs : f.shown) (hnd : f.distinctPids) (he : e ∈ f.entries)
    (hp : passesFilter e.name e.pid f.filter = true)
    (hfail : e.stat = none ∨ e.stat = some "") :
    readProcessCpuTime e.stat = 0 ∧
    (renderProcessesWindow cfg s f).1.processesCpuData e.pid
      = some ⟨e.name, e.state, 0, 0, readProcessMemoryPercent e.status cfg.totalMemKb⟩ ∧
    (∃ row ∈ (renderProcessesWindow cfg s f).2, row.pid = e.pid) ∧
    ∀ row ∈ (renderProcessesWindow cfg s f).2, row.pid = e.pid → row.cpuPercent = 0 := by
  have hzero : readProcessCpuTime e.stat = 0 := by
    rcases hfail with h | h
    · rw [h]; rfl
    · rw [h]; rfl
  have h := poll_percent_of_entry cfg s f e hs hnd he hp
  rw [hzero, procCpuPercent_zero_ticks] at h
  refine ⟨hzero, ?_, h.2.1, h.2.2⟩
  rw [poll_table_written cfg s f e hs hnd he hp]
  simp [newRecord, hzero, procCpuPercent_zero_ticks]

/-- C8, amended, at the poll of the counterexample. -/
theorem unreadable_stat_read_as_zero_ticks_witness :
    (renderProcessesWindow exampleConf ⟨catTable 500 160, fun _ => false, 1000, 1⟩
        (shownFrame "" 2000 2 [catEntry none])).1.processesCpuData 42
      = some ⟨"cat", 'S', 0, 0, readProcessMemoryPercent (some 0) 16000000⟩ ∧
    ∃ row ∈ (renderProcessesWindow exampleConf ⟨catTable 500 160, fun _ => false, 1000, 1⟩
        (shownFrame "" 2000 2 [catEntry none])).2, row.pid = 42 := by
  have h := unreadable_stat_read_as_zero_ticks exampleConf
    ⟨catTable 500 160, fun _ => false, 1000, 1⟩ (shownFrame "" 2000 2 [catEntry none])
    (catEntry none) (by decide) (by decide) (by simp [shownFrame]) (by decide)
    (Or.inl rfl)
  exact ⟨h.2.1, h.2.2.1⟩

/-! ## The claims about the system CPU percentage -/

/-- C9. A call of `getCpuUsagePercent` that reads the counters returns, with
`deltaTotal = total - lastTotal` and `deltaIdle = idle - lastIdle`, the value `0.0` when
`deltaTotal = 0` and otherwise `100 * (deltaTotal - deltaIdle) / deltaTotal` as an exact
rational; idle going from 1000 to 1100 and total from 2000 to 2300 gives `200 / 3`. -/
theorem system_percent_formula :
    (∀ (s : CpuState) (stat : CPUStats),
      (getCpuUsagePercent s (some stat)).1
        = if stat.total - s.lastTotal = 0 then 0
          else 100 * (((stat.total : ℚ) - (s.lastTotal : ℚ))
              - ((stat.idleTime : ℚ) - (s.lastIdle : ℚ)))
            / ((stat.total : ℚ) - (s.lastTotal : ℚ))) ∧
    (∀ prevIdle prevTotal currIdle currTotal : Int,
      systemCpuPercent prevIdle prevTotal currIdle currTotal
        = (getCpuUsagePercent ⟨prevIdle, prevTotal⟩
            (some { idle := currIdle, user := currTotal - currIdle })).1) ∧
    systemCpuPercent 1000 2000 1100 2300 = 200 / 3 ∧
    (getCpuUsagePercent ⟨1000, 2000⟩
      (some { user := 900, nice := 50, system := 200, idle := 1000, iowait := 100,
              irq := 20, softirq := 20, steal := 10 })).1 = 200 / 3 := by
  refine ⟨?_, ?_, ?_, ?_⟩
  · intro s stat
    simp only [getCpuUsagePercent, systemCpuPercent]
    by_cases h : stat.total - s.lastTotal = 0
    · simp [h]
    · simp only [h, if_false]
      push_cast
      ring
  · intro prevIdle prevTotal currIdle currTotal
    simp [getCpuUsagePercent, CPUStats.idleTime, CPUStats.total, CPUStats.nonIdle]
  · simp [systemCpuPercent]
    norm_num
  · simp [getCpuUsagePercent, systemCpuPercent, CPUStats.idleTime, CPUStats.total,
      CPUStats.nonIdle]
    norm_num

/-! ## Binary32 rounding: order, error and values -/

theorem roundHalfEven_intCast (k : ℤ) : roundHalfEven (k : ℚ) = k := by
  unfold roundHalfEven
  simp

theorem roundHalfEven_floor_le (q : ℚ) : ⌊q⌋ ≤ roundHalfEven q := by
  unfold roundHalfEven
  split_ifs <;> omega

theorem roundHalfEven_le_floor_succ (q : ℚ) : roundHalfEven q ≤ ⌊q⌋ + 1 := by
  unfold roundHalfEven
  split_ifs <;> omega

theorem roundHalfEven_sub_le (q : ℚ) : (roundHalfEven q : ℚ) - q ≤ 1 / 2 := by
  have h1 := Int.floor_le q
  have h2 := Int.lt_floor_add_one q
  unfold roundHalfEven
  split_ifs with ha hb hc
  · linarith
  · push_cast; linarith
  · linarith
  · push_cast; linarith

theorem roundHalfEven_mono {q r : ℚ} (h : q ≤ r) : roundHalfEven q ≤ roundHalfEven r := by
  have hfl : ⌊q⌋ ≤ ⌊r⌋ := Int.floor_mono h
  by_cases heq : ⌊q⌋ = ⌊r⌋
  · unfold roundHalfEven
    rw [heq]
    have hfr : q - ⌊r⌋ ≤ r - ⌊r⌋ := by linarith
    split_ifs <;> first | omega | (exfalso; linarith)
  · have hlt : ⌊q⌋ + 1 ≤ ⌊r⌋ := by omega
    exact le_trans (roundHalfEven_le_floor_succ q) (le_trans hlt (roundHalfEven_floor_le r))

theorem intCast_le_roundHalfEven {k : ℤ} {q : ℚ} (h : (k : ℚ) ≤ q) : k ≤ roundHalfEven q := by
  have := roundHalfEven_mono h
  rwa [roundHalfEven_intCast] at this

theorem roundHalfEven_le_intCast {k : ℤ} {q : ℚ} (h : q ≤ (k : ℚ)) : roundHalfEven q ≤ k := by
  have := roundHalfEven_mono h
  rwa [roundHalfEven_intCast] at this

theorem roundF32_zero : roundF32 0 = 0 := by
  simp [roundF32]

theorem roundF32_of_pos {x : ℚ} (hx : 0 < x) :
    roundF32 x
      = (roundHalfEven (x / 2 ^ (Int.log 2 x - 23)) : ℚ) * 2 ^ (Int.log 2 x - 23) := by
  unfold roundF32
  rw [if_neg (ne_of_gt hx), if_pos hx]

/-- A positive value and its rounding lie in the same binade, ends included. -/
theorem roundF32_binade {x : ℚ} (hx : 0 < x) :
    (2 : ℚ) ^ Int.log 2 x ≤ roundF32 x ∧ roundF32 x ≤ (2 : ℚ) ^ (Int.log 2 x + 1) := by
  have hulp : (0 : ℚ) < 2 ^ (Int.log 2 x - 23) := by positivity
  have hlo : ((2 : ℕ) : ℚ) ^ Int.log 2 x ≤ x := Int.zpow_log_le_self (by norm_num) hx
  have hhi : x < ((2 : ℕ) : ℚ) ^ (Int.log 2 x + 1) := Int.lt_zpow_succ_log_self (by norm_num) x
  rw [Nat.cast_ofNat] at hlo hhi
  have e1 : (2 : ℚ) ^ Int.log 2 x = ((2 ^ 23 : ℤ) : ℚ) * 2 ^ (Int.log 2 x - 23) := by
    rw [zpow_sub₀ (by norm_num)]
    push_cast
    field_simp
    ring
  have e2 : (2 : ℚ) ^ (Int.log 2 x + 1) = ((2 ^ 24 : ℤ) : ℚ) * 2 ^ (Int.log 2 x - 23) := by
    rw [zpow_sub₀ (by norm_num), zpow_add₀ (by norm_num)]
    push_cast
    field_simp
    ring
  rw [roundF32_of_pos hx]
  constructor
  · rw [e1]
    apply mul_le_mul_of_nonneg_right _ hulp.le
    have : ((2 ^ 23 : ℤ) : ℚ) ≤ x / 2 ^ (Int.log 2 x - 23) := by
      rw [le_div_iff₀ hulp, ← e1]
      exact hlo
    exact_mod_cast intCast_le_roundHalfEven this
  · rw [e2]
    apply mul_le_mul_of_nonneg_right _ hulp.le
    have : x / 2 ^ (Int.log 2 x - 23) ≤ ((2 ^ 24 : ℤ) : ℚ) := by
      rw [div_le_iff₀ hulp, ← e2]
      exact hhi.le
    exact_mod_cast roundHalfEven_le_intCast this

theorem roundF32_nonneg {x : ℚ} (hx : 0 ≤ x) : 0 ≤ roundF32 x := by
  rcases eq_or_lt_of_le hx with h | h
  · rw [← h, roundF32_zero]
  · exact le_trans (by positivity) (roundF32_binade h).1

theorem roundF32_mono {x y : ℚ} (hx : 0 ≤ x) (h : x ≤ y) : roundF32 x ≤ roundF32 y := by
  rcases eq_or_lt_of_le hx with h0 | hpos
  · rw [← h0, roundF32_zero]
    exact roundF32_nonneg (le_trans hx h)
  · have hy : 0 < y := lt_of_lt_of_le hpos h
    have hlog : Int.log 2 x ≤ Int.log 2 y := Int.log_mono_right hpos h
    by_cases heq : Int.log 2 x = Int.log 2 y
    · rw [roundF32_of_pos hpos, roundF32_of_pos hy, heq]
      have hulp : (0 : ℚ) < 2 ^ (Int.log 2 y - 23) := by positivity
      apply mul_le_mul_of_nonneg_right _ hulp.le
      have : x / 2 ^ (Int.log 2 y - 23) ≤ y / 2 ^ (Int.log 2 y - 23) :=
        div_le_div_of_nonneg_right h hulp.le
      exact_mod_cast roundHalfEven_mono this
    · have hlt : Int.log 2 x + 1 ≤ Int.log 2 y := by omega
      calc roundF32 x ≤ (2 : ℚ) ^ (Int.log 2 x + 1) := (roundF32_binade hpos).2
        _ ≤ (2 : ℚ) ^ Int.log 2 y := zpow_le_zpow_right₀ (by norm_num) hlt
        _ ≤ roundF32 y := (roundF32_binade hy).1

/-- Rounding raises a positive value by at most the factor `1 + 2 ^ (-24)`. -/
theorem roundF32_le_mul {x : ℚ} (hx : 0 < x) : roundF32 x ≤ x * (1 + 1 / 2 ^ 24) := by
  have hulp : (0 : ℚ) < 2 ^ (Int.log 2 x - 23) := by positivity
  have hlo : ((2 : ℕ) : ℚ) ^ Int.log 2 x ≤ x := Int.zpow_log_le_self (by norm_num) hx
  rw [Nat.cast_ofNat] at hlo
  have e1 : (2 : ℚ) ^ Int.log 2 x = 2 ^ 23 * 2 ^ (Int.log 2 x - 23) := by
    rw [zpow_sub₀ (by norm_num)]
    field_simp
    ring
  have herr := roundHalfEven_sub_le (x / 2 ^ (Int.log 2 x - 23))
  rw [roundF32_of_pos hx]
  have hmul : (roundHalfEven (x / 2 ^ (Int.log 2 x - 23)) : ℚ) * 2 ^ (Int.log 2 x - 23)
      ≤ x + 1 / 2 * 2 ^ (Int.log 2 x - 23) := by
    have := mul_le_mul_of_nonneg_right herr hulp.le
    rw [sub_mul, div_mul_cancel₀ _ (ne_of_gt hulp)] at this
    linarith
  have hhalf : 1 / 2 * (2 : ℚ) ^ (Int.log 2 x - 23) ≤ x * (1 / 2 ^ 24) := by
    rw [e1] at hlo
    nlinarith
  linarith

theorem roundHalfEven_sub_ge (q : ℚ) : q - (roundHalfEven q : ℚ) ≤ 1 / 2 := by
  have h1 := Int.floor_le q
  have h2 := Int.lt_floor_add_one q
  unfold roundHalfEven
  split_ifs with ha hb hc
  · linarith
  · push_cast; linarith
  · linarith
  · push_cast; linarith

theorem roundHalfEven_eq_of_near {q : ℚ} {m : ℤ} (h1 : (m : ℚ) - 1 / 2 < q)
    (h2 : q < (m : ℚ) + 1 / 2) : roundHalfEven q = m := by
  have herr := roundHalfEven_sub_le q
  have herr2 := roundHalfEven_sub_ge q
  apply le_antisymm
  · by_contra hcon
    have h3 : m + 1 ≤ roundHalfEven q := by omega
    have : ((m + 1 : ℤ) : ℚ) ≤ (roundHalfEven q : ℚ) := by exact_mod_cast h3
    push_cast at this
    linarith
  · by_contra hcon
    have h3 : roundHalfEven q + 1 ≤ m := by omega
    have : ((roundHalfEven q + 1 : ℤ) : ℚ) ≤ (m : ℚ) := by exact_mod_cast h3
    push_cast at this
    linarith

theorem roundHalfEven_eq_of_tie {q : ℚ} {m : ℤ} (hq : q = (m : ℚ) + 1 / 2)
    (hodd : m % 2 = 1) : roundHalfEven q = m + 1 := by
  have hfloor : ⌊q⌋ = m := by
    rw [Int.floor_eq_iff, hq]
    constructor <;> linarith
  unfold roundHalfEven
  rw [hfloor, hq]
  have hfrac : (m : ℚ) + 1 / 2 - (m : ℚ) = 1 / 2 := by ring
  rw [hfrac, if_neg (lt_irrefl _), if_neg (lt_irrefl _), if_neg (by omega)]

theorem log_eq_of_binade {x : ℚ} (e : ℤ) (hlo : (2 : ℚ) ^ e ≤ x)
    (hhi : x < (2 : ℚ) ^ (e + 1)) : Int.log 2 x = e := by
  have hx : 0 < x := lt_of_lt_of_le (by positivity) hlo
  apply le_antisymm
  · have := (Int.lt_zpow_iff_log_lt (R := ℚ) (b := 2) (by norm_num) hx).1
      (by rw [Nat.cast_ofNat]; exact hhi)
    omega
  · exact (Int.zpow_le_iff_le_log (R := ℚ) (b := 2) (by norm_num) hx).1
      (by rw [Nat.cast_ofNat]; exact hlo)

/-- The rounding of a value whose scaled distance to an integer is below one half. -/
theorem roundF32_eq_of_near {x : ℚ} (e m : ℤ) (hlo : (2 : ℚ) ^ e ≤ x)
    (hhi : x < (2 : ℚ) ^ (e + 1)) (hm1 : (m : ℚ) - 1 / 2 < x / 2 ^ (e - 23))
    (hm2 : x / 2 ^ (e - 23) < (m : ℚ) + 1 / 2) :
    roundF32 x = (m : ℚ) * 2 ^ (e - 23) := by
  have hx : 0 < x := lt_of_lt_of_le (by positivity) hlo
  rw [roundF32_of_pos hx, log_eq_of_binade e hlo hhi, roundHalfEven_eq_of_near hm1 hm2]

/-- The rounding of a value half way between two neighbours, the lower one odd. -/
theorem roundF32_eq_of_tie {x : ℚ} (e m : ℤ) (hlo : (2 : ℚ) ^ e ≤ x)
    (hhi : x < (2 : ℚ) ^ (e + 1)) (hq : x / 2 ^ (e - 23) = (m : ℚ) + 1 / 2)
    (hodd : m % 2 = 1) :
    roundF32 x = ((m + 1 : ℤ) : ℚ) * 2 ^ (e - 23) := by
  have hx : 0 < x := lt_of_lt_of_le (by positivity) hlo
  rw [roundF32_of_pos hx, log_eq_of_binade e hlo hhi, roundHalfEven_eq_of_tie hq hodd]

theorem roundF32_neg (x : ℚ) : roundF32 (-x) = -roundF32 x := by
  unfold roundF32
  rcases lt_trichotomy x 0 with h | h | h
  · have h1 : -x ≠ 0 := by linarith [h]
    have h2 : 0 < -x := by linarith
    have h3 : x ≠ 0 := ne_of_lt h
    have h4 : ¬ 0 < x := by linarith
    rw [if_neg h1, if_pos h2, if_neg h3, if_neg h4, neg_neg]
  · simp [h]
  · have h1 : -x ≠ 0 := by linarith [h]
    have h2 : ¬ 0 < -x := by linarith
    have h3 : x ≠ 0 := ne_of_gt h
    rw [if_neg h1, if_neg h2, if_pos h, if_neg h3, neg_neg]

theorem roundF32_eval_100 : roundF32 100 = 100 := by
  have h := roundF32_eq_of_near (x := 100) 6 13107200 (by norm_num) (by norm_num)
    (by norm_num) (by norm_num)
  rw [h]; norm_num

theorem roundF32_eval_top : roundF32 (100 * (1 + 1 / 2 ^ 24)) = 100 + 1 / 2 ^ 17 := by
  have h := roundF32_eq_of_near (x := 100 * (1 + 1 / 2 ^ 24)) 6 13107201 (by norm_num)
    (by norm_num) (by norm_num) (by norm_num)
  rw [h]; norm_num

/-- The binary32 percentage for a total delta `d > 0` and a busy delta `n` with
`0 <= n <= d`: it is at least 0 and at most one unit in the last place above 100. -/
theorem f32_quotient_in_range (n d : Int) (hn : 0 ≤ n) (hnd : n ≤ d) (hd : 0 < d) :
    0 ≤ roundF32 (roundF32 (100 * roundF32 (n : ℚ)) / roundF32 (d : ℚ)) ∧
    roundF32 (roundF32 (100 * roundF32 (n : ℚ)) / roundF32 (d : ℚ)) ≤ 100 + 1 / 2 ^ 17 := by
  have hnq : (0 : ℚ) ≤ (n : ℚ) := by exact_mod_cast hn
  have hndq : (n : ℚ) ≤ (d : ℚ) := by exact_mod_cast hnd
  have hdq : (0 : ℚ) < (d : ℚ) := by exact_mod_cast hd
  have ha : 0 ≤ roundF32 (n : ℚ) := roundF32_nonneg hnq
  have hab : roundF32 (n : ℚ) ≤ roundF32 (d : ℚ) := roundF32_mono hnq hndq
  have hb : 0 < roundF32 (d : ℚ) :=
    lt_of_lt_of_le (by positivity) (roundF32_binade hdq).1
  have hp0 : 0 ≤ roundF32 (100 * roundF32 (n : ℚ)) := roundF32_nonneg (by positivity)
  have hp1 : roundF32 (100 * roundF32 (n : ℚ))
      ≤ 100 * roundF32 (d : ℚ) * (1 + 1 / 2 ^ 24) :=
    le_trans (roundF32_mono (by positivity) (by linarith))
      (roundF32_le_mul (by positivity))
  have hq0 : 0 ≤ roundF32 (100 * roundF32 (n : ℚ)) / roundF32 (d : ℚ) :=
    div_nonneg hp0 hb.le
  have hq1 : roundF32 (100 * roundF32 (n : ℚ)) / roundF32 (d : ℚ)
      ≤ 100 * (1 + 1 / 2 ^ 24) := by
    rw [div_le_iff₀ hb]
    linarith
  refine ⟨roundF32_nonneg hq0, ?_⟩
  rw [← roundF32_eval_top]
  exact roundF32_mono hq0 hq1

/-- The binary32 percentage, step by step: the two conversions, the product and the
quotient. -/
theorem systemCpuPercentF32_steps (prevIdle prevTotal currIdle currTotal : Int)
    (n d a p b r : ℚ) (hne : currTotal - prevTotal ≠ 0)
    (hn : ((currTotal - prevTotal - (currIdle - prevIdle) : Int) : ℚ) = n)
    (hd : ((currTotal - prevTotal : Int) : ℚ) = d)
    (ha : roundF32 n = a) (hp : roundF32 (100 * a) = p) (hb : roundF32 d = b)
    (hr : roundF32 (p / b) = r) :
    systemCpuPercentF32 prevIdle prevTotal currIdle currTotal = r := by
  unfold systemCpuPercentF32
  simp only
  rw [if_neg hne, hn, hd, ha, hp, hb, hr]

theorem roundF32_eval_140 : roundF32 140 = 140 := by
  have h := roundF32_eq_of_near (x := 140) 7 9175040 (by norm_num) (by norm_num)
    (by norm_num) (by norm_num)
  rw [h]; norm_num

theorem roundF32_eval_50 : roundF32 50 = 50 := by
  have h := roundF32_eq_of_near (x := 50) 5 13107200 (by norm_num) (by norm_num)
    (by norm_num) (by norm_num)
  rw [h]; norm_num

theorem systemCpuPercentF32_at_140 : systemCpuPercentF32 50 100 10 200 = 140 := by
  have hp : roundF32 (100 * 140) = 14000 := by
    have h := roundF32_eq_of_near (x := 100 * 140) 13 14336000 (by norm_num) (by norm_num)
      (by norm_num) (by norm_num)
    rw [h]; norm_num
  have hr : roundF32 (14000 / 100) = 140 := by
    have h := roundF32_eq_of_near (x := 14000 / 100) 7 9175040 (by norm_num) (by norm_num)
      (by norm_num) (by norm_num)
    rw [h]; norm_num
  exact systemCpuPercentF32_steps 50 100 10 200 140 100 140 14000 100 140 (by decide)
    (by norm_num) (by norm_num) roundF32_eval_140 hp roundF32_eval_100 hr

theorem systemCpuPercentF32_at_minus_50 : systemCpuPercentF32 0 100 150 200 = -50 := by
  have ha : roundF32 (-50) = -50 := by rw [roundF32_neg, roundF32_eval_50]
  have h5000 : roundF32 5000 = 5000 := by
    have h := roundF32_eq_of_near (x := 5000) 12 10240000 (by norm_num) (by norm_num)
      (by norm_num) (by norm_num)
    rw [h]; norm_num
  have hp : roundF32 (100 * -50) = -5000 := by
    have e : (100 : ℚ) * -50 = -5000 := by norm_num
    rw [e, roundF32_neg, h5000]
  have hr : roundF32 (-5000 / 100) = -50 := by
    have e : (-5000 : ℚ) / 100 = -50 := by norm_num
    rw [e, roundF32_neg, roundF32_eval_50]
  exact systemCpuPercentF32_steps 0 100 150 200 (-50) 100 (-50) (-5000) 100 (-50) (by decide)
    (by norm_num) (by norm_num) ha hp roundF32_eval_100 hr

theorem systemCpuPercentF32_at_671091 :
    systemCpuPercentF32 0 0 0 671091 = 100 + 1 / 2 ^ 17 := by
  have ha : roundF32 671091 = 671091 := by
    have h := roundF32_eq_of_near (x := 671091) 19 10737456 (by norm_num) (by norm_num)
      (by norm_num) (by norm_num)
    rw [h]; norm_num
  have hp : roundF32 (100 * 671091) = 67109104 := by
    have h := roundF32_eq_of_tie (x := 100 * 671091) 26 8388637 (by norm_num) (by norm_num)
      (by norm_num) (by norm_num)
    rw [h]; norm_num
  have hr : roundF32 (67109104 / 671091) = 100 + 1 / 2 ^ 17 := by
    have h := roundF32_eq_of_near (x := 67109104 / 671091) 6 13107201 (by norm_num)
      (by norm_num) (by norm_num) (by norm_num)
    rw [h]; norm_num
  exact systemCpuPercentF32_steps 0 0 0 671091 671091 671091 671091 67109104 671091
    (100 + 1 / 2 ^ 17) (by decide) (by norm_num) (by norm_num) ha hp ha hr

/-- C10, refuted as stated. With `prevIdle = 50`, `prevTotal = 100`, `currIdle = 10` and
`currTotal = 200` (the idle sum went back, as `iowait` may) the three conditions of the
claim hold and the value is 140; with `prevIdle = 0`, `prevTotal = 100`, `currIdle = 150`
and `currTotal = 200` they hold and the value is -50. Both values are the same with the
binary32 rounding of the code. With `(0, 0, 0, 671091)` the three conditions hold as well,
the exact quotient is 100, and the binary32 value the code returns is `100 + 2 ^ (-17)`. -/
theorem system_percent_outside_range :
    ((200 : Int) ≥ 100 ∧ (50 : Int) ≤ 100 ∧ (10 : Int) ≤ 200 ∧
      systemCpuPercent 50 100 10 200 = 140 ∧ ¬ systemCpuPercent 50 100 10 200 ≤ 100 ∧
      systemCpuPercentF32 50 100 10 200 = 140) ∧
    ((200 : Int) ≥ 100 ∧ (0 : Int) ≤ 100 ∧ (150 : Int) ≤ 200 ∧
      systemCpuPercent 0 100 150 200 = -50 ∧ ¬ 0 ≤ systemCpuPercent 0 100 150 200 ∧
      systemCpuPercentF32 0 100 150 200 = -50) ∧
    (getCpuUsagePercent ⟨50, 100⟩ (some { idle := 10, iowait := 0, user := 190 })).1
      = 140 ∧
    ((671091 : Int) ≥ 0 ∧ (0 : Int) ≤ 0 ∧ (0 : Int) ≤ 671091 ∧
      systemCpuPercent 0 0 0 671091 = 100 ∧
      systemCpuPercentF32 0 0 0 671091 = 100 + 1 / 2 ^ 17 ∧
      ¬ systemCpuPercentF32 0 0 0 671091 ≤ 100) := by
  have h1 : systemCpuPercent 50 100 10 200 = 140 := by
    norm_num [systemCpuPercent]
  have h2 : systemCpuPercent 0 100 150 200 = -50 := by
    norm_num [systemCpuPercent]
  have h3 : systemCpuPercent 0 0 0 671091 = 100 := by
    norm_num [systemCpuPercent]
  refine ⟨⟨by decide, by decide, by decide, h1, ?_, systemCpuPercentF32_at_140⟩,
    ⟨by decide, by decide, by decide, h2, ?_, systemCpuPercentF32_at_minus_50⟩, ?_,
    ⟨by decide, by decide, by decide, h3, systemCpuPercentF32_at_671091, ?_⟩⟩
  · rw [h1]; norm_num
  · rw [h2]; norm_num
  · norm_num [getCpuUsagePercent, systemCpuPercent, CPUStats.idleTime, CPUStats.total,
      CPUStats.nonIdle]
  · rw [systemCpuPercentF32_at_671091]; norm_num

/-- C10, amended. For all `(prevIdle, prevTotal, currIdle, currTotal)` with
`currTotal >= prevTotal`, `prevIdle <= prevTotal`, `currIdle <= currTotal` and, in
addition, an idle counter that did not go back and did not grow more than the total
(`prevIdle <= currIdle` and `currIdle - prevIdle <= currTotal - prevTotal`): the exact
value of `100 * (deltaTotal - deltaIdle) / deltaTotal` lies in `[0, 100]`, and the binary32
value that the code returns lies in `[0, 100 + 2 ^ (-17)]`, since rounding can carry it one
unit in the last place above 100. -/
theorem system_percent_in_range (prevIdle prevTotal currIdle currTotal : Int)
    (hT : currTotal ≥ prevTotal) (_hp : prevIdle ≤ prevTotal) (_hc : currIdle ≤ currTotal)
    (hI : prevIdle ≤ currIdle) (hd : currIdle - prevIdle ≤ currTotal - prevTotal) :
    (0 ≤ systemCpuPercent prevIdle prevTotal currIdle currTotal ∧
      systemCpuPercent prevIdle prevTotal currIdle currTotal ≤ 100) ∧
    (0 ≤ systemCpuPercentF32 prevIdle prevTotal currIdle currTotal ∧
      systemCpuPercentF32 prevIdle prevTotal currIdle currTotal ≤ 100 + 1 / 2 ^ 17) := by
  constructor
  · unfold systemCpuPercent
    by_cases h : currTotal - prevTotal = 0
    · simp [h]
    · simp only [h, if_false]
      have hpos : (0 : ℚ) < ((currTotal - prevTotal : Int) : ℚ) := by
        have : 0 < currTotal - prevTotal := by omega
        exact_mod_cast this
      have hnum0 : (0 : ℚ) ≤ ((currTotal - prevTotal - (currIdle - prevIdle) : Int) : ℚ) := by
        have : 0 ≤ currTotal - prevTotal - (currIdle - prevIdle) := by omega
        exact_mod_cast this
      have hnum1 : ((currTotal - prevTotal - (currIdle - prevIdle) : Int) : ℚ)
          ≤ ((currTotal - prevTotal : Int) : ℚ) := by
        have : currTotal - prevTotal - (currIdle - prevIdle) ≤ currTotal - prevTotal := by
          omega
        exact_mod_cast this
      constructor
      · exact div_nonneg (mul_nonneg (by norm_num) hnum0) hpos.le
      · rw [div_le_iff₀ hpos]
        nlinarith
  · unfold systemCpuPercentF32
    by_cases h : currTotal - prevTotal = 0
    · simp only [h, if_true]
      norm_num
    · simp only [h, if_false]
      exact f32_quotient_in_range (currTotal - prevTotal - (currIdle - prevIdle))
        (currTotal - prevTotal) (by omega) (by omega) (by omega)

/-- C10, amended, at the example of the specification (idle 1000 to 1100, total 2000 to
2300), and at `(0, 0, 0, 671091)`, where the binary32 value is the upper end of the
range. -/
theorem system_percent_in_range_witness :
    ((0 ≤ systemCpuPercent 1000 2000 1100 2300 ∧ systemCpuPercent 1000 2000 1100 2300 ≤ 100) ∧
      (0 ≤ systemCpuPercentF32 1000 2000 1100 2300 ∧
        systemCpuPercentF32 1000 2000 1100 2300 ≤ 100 + 1 / 2 ^ 17)) ∧
    systemCpuPercentF32 0 0 0 671091 ≤ 100 + 1 / 2 ^ 17 :=
  ⟨system_percent_in_range 1000 2000 1100 2300 (by decide) (by decide) (by decide)
      (by decide) (by decide),
    (system_percent_in_range 0 0 0 671091 (by decide) (by decide) (by decide)
      (by decide) (by decide)).2.2⟩

/-! ## The claims about the history buffers -/

theorem pushSample_length_le (history : List ℚ) (value : ℚ)
    (h : history.length ≤ maxSamples) : (pushSample history value).length ≤ maxSamples := by
  unfold pushSample
  simp only
  split
  · simp only [List.length_tail, List.length_append, List.length_singleton]
    omega
  · omega

theorem renderCpuTab_length_le (t : CpuTab) (f : CpuTabFrame)
    (h : t.cpuUsageHistory.length ≤ maxSamples) :
    (renderCpuTab t f).1.cpuUsageHistory.length ≤ maxSamples := by
  unfold renderCpuTab
  simp only
  split
  · exact h
  · exact pushSample_length_le _ _ h

theorem renderFanTab_length_le (t : FanTab) (f : FanTabFrame)
    (h : t.fanSpeedHistory.length ≤ maxSamples) :
    (renderFanTab t f).1.fanSpeedHistory.length ≤ maxSamples := by
  unfold renderFanTab
  simp only
  split
  · exact h
  · exact pushSample_length_le _ _ h

theorem renderThermalTab_length_le (t : ThermalTab) (f : ThermalTabFrame)
    (h : t.thermalHistory.length ≤ maxSamples) :
    (renderThermalTab t f).1.thermalHistory.length ≤ maxSamples := by
  unfold renderThermalTab
  simp only
  split
  · exact h
  · exact pushSample_length_le _ _ h

theorem runCpuTab_length_le (fs : List CpuTabFrame) :
    ∀ t : CpuTab, t.cpuUsageHistory.length ≤ maxSamples →
      (runCpuTab t fs).cpuUsageHistory.length ≤ maxSamples := by
  induction fs with
  | nil => intro t h; exact h
  | cons f rest ih => intro t h; exact ih _ (renderCpuTab_length_le t f h)

theorem runFanTab_length_le (fs : List FanTabFrame) :
    ∀ t : FanTab, t.fanSpeedHistory.length ≤ maxSamples →
      (runFanTab t fs).fanSpeedHistory.length ≤ maxSamples := by
  induction fs with
  | nil => intro t h; exact h
  | cons f rest ih => intro t h; exact ih _ (renderFanTab_length_le t f h)

theorem runThermalTab_length_le (fs : List ThermalTabFrame) :
    ∀ t : ThermalTab, t.thermalHistory.length ≤ maxSamples →
      (runThermalTab t fs).thermalHistory.length ≤ maxSamples := by
  induction fs with
  | nil => intro t h; exact h
  | cons f rest ih => intro t h; exact ih _ (renderThermalTab_length_le t f h)

/-- C11. Starting from the empty buffers of program start, after any sequence of frames
(each with the pause box clicked or not, and any reading) the histories
`cpuUsageHistory`, `fanSpeedHistory` and `thermalHistory` hold at most `maxSamples = 100`
values. -/
theorem history_length_bounded :
    maxSamples = 100 ∧
    (∀ fs : List CpuTabFrame, (runCpuTab {} fs).cpuUsageHistory.length ≤ 100) ∧
    (∀ fs : List FanTabFrame, (runFanTab {} fs).fanSpeedHistory.length ≤ 100) ∧
    (∀ fs : List ThermalTabFrame, (runThermalTab {} fs).thermalHistory.length ≤ 100) := by
  refine ⟨rfl, ?_, ?_, ?_⟩
  · intro fs
    exact runCpuTab_length_le fs {} (Nat.zero_le _)
  · intro fs
    exact runFanTab_length_le fs {} (Nat.zero_le _)
  · intro fs
    exact runThermalTab_length_le fs {} (Nat.zero_le _)

/-- C12. In a frame whose pause flag is set when the history is updated, the history of the
tab is exactly what it was before the frame, and so is the vector handed to the plot: no
sample is appended and none is removed. This holds for the CPU tab, the fan tab and the
thermal tab, whatever the buffer holds and whatever value is read. -/
theorem paused_frame_keeps_history (c : CpuTab) (cf : CpuTabFrame) (n : FanTab)
    (nf : FanTabFrame) (h : ThermalTab) (hf : ThermalTabFrame)
    (hc : (renderCpuTab c cf).1.pauseCPU = true)
    (hn : (renderFanTab n nf).1.pauseFan = true)
    (hh : (renderThermalTab h hf).1.pauseThermal = true) :
    ((renderCpuTab c cf).1.cpuUsageHistory = c.cpuUsageHistory ∧
      (renderCpuTab c cf).2.1 = c.cpuUsageHistory) ∧
    (renderFanTab n nf).1.fanSpeedHistory = n.fanSpeedHistory ∧
    (renderThermalTab h hf).1.thermalHistory = h.thermalHistory := by
  have hc1 : checkbox c.pauseCPU cf.pauseClicked = true := hc
  have hn1 : checkbox n.pauseFan nf.pauseClicked = true := hn
  have hh1 : checkbox h.pauseThermal hf.pauseClicked = true := hh
  refine ⟨⟨?_, ?_⟩, ?_, ?_⟩
  · simp [renderCpuTab, hc1]
  · simp [renderCpuTab, hc1]
  · simp [renderFanTab, hn1]
  · simp [renderThermalTab, hh1]

/-- C12 at concrete frames: the three tabs hold the samples 10, 20, 30; the CPU and the fan
tab are paused already, the thermal tab is paused by a click in the frame. -/
theorem paused_frame_keeps_history_witness :
    (renderCpuTab ⟨true, [10, 20, 30], ⟨1000, 2000⟩⟩
        ⟨false, some { idle := 1100, user := 1200 }⟩).1.cpuUsageHistory = [10, 20, 30] ∧
    (renderFanTab ⟨true, [10, 20, 30]⟩ ⟨⟨true, 1200, 3⟩, false⟩).1.fanSpeedHistory
      = [10, 20, 30] ∧
    (renderThermalTab ⟨false, [10, 20, 30]⟩ ⟨55, true⟩).1.thermalHistory = [10, 20, 30] := by
  have h := paused_frame_keeps_history ⟨true, [10, 20, 30], ⟨1000, 2000⟩⟩
    ⟨false, some { idle := 1100, user := 1200 }⟩ ⟨true, [10, 20, 30]⟩
    ⟨⟨true, 1200, 3⟩, false⟩ ⟨false, [10, 20, 30]⟩ ⟨55, true⟩ rfl rfl rfl
  exact ⟨h.1.1, h.2.1, h.2.2⟩

/-- Unpaused pushes into the empty buffer keep the last `maxSamples` values, in push
order. -/
theorem foldl_pushSample_eq_drop (vs : List ℚ) :
    vs.foldl pushSample [] = vs.drop (vs.length - maxSamples) := by
  induction vs using List.reverseRecOn with
  | nil => rfl
  | append_singleton init v ih =>
    rw [List.foldl_append, List.foldl_cons, List.foldl_nil, ih]
    unfold pushSample
    simp only [List.length_append, List.length_singleton, List.length_drop]
    by_cases hcap : maxSamples ≤ init.length
    · have hlt : maxSamples < init.length - (init.length - maxSamples) + 1 := by omega
      rw [if_pos hlt, ← List.drop_append_of_le_length (Nat.sub_le _ _), List.tail_drop]
      congr 1
      omega
    · have hnot : ¬ maxSamples < init.length - (init.length - maxSamples) + 1 := by omega
      have h0 : init.length - maxSamples = 0 := by omega
      have h1 : init.length + 1 - maxSamples = 0 := by omega
      rw [if_neg hnot, h0, h1]
      rfl

/-- A run of the fan tab without a click on the pause box pushes every reading. -/
theorem runFanTab_unpaused (fs : List FanTabFrame) :
    ∀ history : List ℚ, (∀ f ∈ fs, f.pauseClicked = false) →
      runFanTab ⟨false, history⟩ fs
        = ⟨false, (fs.map (fun f => (f.fan.speedRPM : ℚ))).foldl pushSample history⟩ := by
  induction fs with
  | nil => intro history _; rfl
  | cons f rest ih =>
    intro history h
    have hf : f.pauseClicked = false := h f (List.mem_cons_self _ _)
    have hstep : runFanTab ⟨false, history⟩ (f :: rest)
        = runFanTab ⟨false, pushSample history (f.fan.speedRPM : ℚ)⟩ rest := by
      simp [runFanTab, renderFanTab, checkbox, hf]
    rw [hstep, ih _ (fun g hg => h g (List.mem_cons_of_mem _ hg))]
    rfl

/-- A run of the thermal tab without a click on the pause box pushes every reading. -/
theorem runThermalTab_unpaused (fs : List ThermalTabFrame) :
    ∀ history : List ℚ, (∀ f ∈ fs, f.pauseClicked = false) →
      runThermalTab ⟨false, history⟩ fs
        = ⟨false, (fs.map (fun f => f.currentTemp)).foldl pushSample history⟩ := by
  induction fs with
  | nil => intro history _; rfl
  | cons f rest ih =>
    intro history h
    have hf : f.pauseClicked = false := h f (List.mem_cons_self _ _)
    have hstep : runThermalTab ⟨false, history⟩ (f :: rest)
        = runThermalTab ⟨false, pushSample history f.currentTemp⟩ rest := by
      simp [runThermalTab, renderThermalTab, checkbox, hf]
    rw [hstep, ih _ (fun g hg => h g (List.mem_cons_of_mem _ hg))]
    rfl

/-- A run of the CPU tab without a click on the pause box pushes the value of every call
of `getCpuUsagePercent`. -/
theorem runCpuTab_unpaused (fs : List CpuTabFrame) :
    ∀ (history : List ℚ) (s : CpuState), (∀ f ∈ fs, f.pauseClicked = false) →
      (runCpuTab ⟨false, history, s⟩ fs).cpuUsageHistory
        = (cpuUsageSeries s (fs.map (fun f => f.procStat))).foldl pushSample history := by
  induction fs with
  | nil => intro history s _; rfl
  | cons f rest ih =>
    intro history s h
    have hf : f.pauseClicked = false := h f (List.mem_cons_self _ _)
    have hstep : runCpuTab ⟨false, history, s⟩ (f :: rest)
        = runCpuTab ⟨false, pushSample history (getCpuUsagePercent s f.procStat).1,
            (getCpuUsagePercent s f.procStat).2⟩ rest := by
      simp [runCpuTab, renderCpuTab, checkbox, hf]
    rw [hstep, ih _ _ (fun g hg => h g (List.mem_cons_of_mem _ hg))]
    rfl

theorem cpuUsageSeries_length (files : List (Option CPUStats)) :
    ∀ s : CpuState, (cpuUsageSeries s files).length = files.length := by
  induction files with
  | nil => intro s; rfl
  | cons file rest ih => intro s; simp [cpuUsageSeries, ih]

/-- C13. Unpaused pushes of `v1 .. vn` into an empty history leave the last
`min n maxSamples` of them, oldest first, and a push into a full history drops exactly its
first value and appends the new one. For the tabs: after `n` frames without a click on the
pause box, from the state of program start, the fan history is the last `min n 100` fan
speeds read, the thermal history the last `min n 100` temperatures read, and the CPU
history the last `min n 100` values returned by `getCpuUsagePercent`. -/
theorem history_is_last_samples :
    (∀ vs : List ℚ, vs.foldl pushSample [] = vs.drop (vs.length - maxSamples) ∧
      (vs.foldl pushSample []).length = min vs.length maxSamples) ∧
    (∀ (history : List ℚ) (v : ℚ), history.length = maxSamples →
      pushSample history v = history.tail ++ [v]) ∧
    (∀ fs : List CpuTabFrame, (∀ f ∈ fs, f.pauseClicked = false) →
      (runCpuTab {} fs).cpuUsageHistory
        = (cpuUsageSeries {} (fs.map (fun f => f.procStat))).drop (fs.length - maxSamples)) ∧
    (∀ fs : List FanTabFrame, (∀ f ∈ fs, f.pauseClicked = false) →
      (runFanTab {} fs).fanSpeedHistory
        = (fs.map (fun f => (f.fan.speedRPM : ℚ))).drop (fs.length - maxSamples)) ∧
    (∀ fs : List ThermalTabFrame, (∀ f ∈ fs, f.pauseClicked = false) →
      (runThermalTab {} fs).thermalHistory
        = (fs.map (fun f => f.currentTemp)).drop (fs.length - maxSamples)) := by
  refine ⟨?_, ?_, ?_, ?_, ?_⟩
  · intro vs
    refine ⟨foldl_pushSample_eq_drop vs, ?_⟩
    rw [foldl_pushSample_eq_drop, List.length_drop]
    omega
  · intro history v hfull
    unfold pushSample
    simp only [List.length_append, List.length_singleton, hfull]
    rw [if_pos (Nat.lt_succ_self _)]
    cases history with
    | nil => simp [maxSamples] at hfull
    | cons x xs => rfl
  · intro fs h
    have hrun := runCpuTab_unpaused fs [] {} h
    rw [foldl_pushSample_eq_drop, cpuUsageSeries_length, List.length_map] at hrun
    exact hrun
  · intro fs h
    have hrun := runFanTab_unpaused fs [] h
    have hinit : ({} : FanTab) = ⟨false, []⟩ := rfl
    rw [hinit, hrun, foldl_pushSample_eq_drop, List.length_map]
  · intro fs h
    have hrun := runThermalTab_unpaused fs [] h
    have hinit : ({} : ThermalTab) = ⟨false, []⟩ := rfl
    rw [hinit, hrun, foldl_pushSample_eq_drop, List.length_map]

/-- C13 at concrete inputs: 102 pushes of the values 0 to 101 leave the values 2 to 101;
a push of 7 into a full buffer of the values 0 to 99 leaves 1 to 99 and then 7; three
unpaused frames of the fan tab with 1200, 1300 and 1250 RPM leave these three values. -/
theorem history_is_last_samples_witness :
    (((List.range 102).map (fun i => (i : ℚ))).foldl pushSample []
      = ((List.range 102).map (fun i => (i : ℚ))).drop 2) ∧
    (pushSample ((List.range 100).map (fun i => (i : ℚ))) 7
      = ((List.range 100).map (fun i => (i : ℚ))).tail ++ [7]) ∧
    (runFanTab {} [⟨⟨true, 1200, 3⟩, false⟩, ⟨⟨true, 1300, 3⟩, false⟩,
        ⟨⟨true, 1250, 3⟩, false⟩]).fanSpeedHistory = [1200, 1300, 1250] := by
  refine ⟨?_, ?_, ?_⟩
  · have h := (history_is_last_samples.1 ((List.range 102).map (fun i => (i : ℚ)))).1
    simpa [maxSamples] using h
  · exact history_is_last_samples.2.1 _ 7 (by simp only [List.length_map, List.length_range]; rfl)
  · have h := history_is_last_samples.2.2.2.1
      [⟨⟨true, 1200, 3⟩, false⟩, ⟨⟨true, 1300, 3⟩, false⟩, ⟨⟨true, 1250, 3⟩, false⟩]
      (by simp)
    simpa [maxSamples] using h

/-! ## The claim about the selection set -/

/-- A pid that no kept entry of the listing carries keeps its selection through the
loop. -/
theorem foldl_loopBody_selected_untouched (cfg : SysConf) (canCalc : Bool)
    (totalCpu lastTotalCpu : Nat) (filter : String) (p : Nat) (es : List ProcEntry) :
    ∀ acc : LoopState,
      (∀ e ∈ es, passesFilter e.name e.pid filter = true → e.pid ≠ p) →
      (es.foldl (loopBody cfg canCalc totalCpu lastTotalCpu filter) acc).selected p
        = acc.selected p := by
  induction es with
  | nil => intro acc _; rfl
  | cons x xs ih =>
    intro acc h
    rw [List.foldl_cons, ih _ (fun e he => h e (List.mem_cons_of_mem _ he))]
    by_cases hx : passesFilter x.name x.pid filter = true
    · exact loopBody_selected_other _ _ _ _ _ _ _ _ (h x (List.mem_cons_self _ _) hx)
    · rw [loopBody_of_hidden _ _ _ _ _ _ _ (by simpa using hx)]

/-- In a listing with distinct pids, the selection of a kept entry after the loop is the
one the loop started with, inverted when the row was clicked. -/
theorem foldl_loopBody_selected_written (cfg : SysConf) (canCalc : Bool)
    (totalCpu lastTotalCpu : Nat) (filter : String) (es : List ProcEntry) :
    ∀ acc : LoopState, (es.map ProcEntry.pid).Nodup →
      ∀ e ∈ es, passesFilter e.name e.pid filter = true →
      (es.foldl (loopBody cfg canCalc totalCpu lastTotalCpu filter) acc).selected e.pid
        = checkbox (acc.selected e.pid) e.clicked := by
  induction es with
  | nil => intro acc _ e he; cases he
  | cons x xs ih =>
    intro acc hnd e he hp
    rw [List.map_cons, List.nodup_cons] at hnd
    rw [List.foldl_cons]
    rcases List.mem_cons.1 he with rfl | hmem
    · rw [foldl_loopBody_selected_untouched]
      · by_cases hc : e.clicked = true
        · simp [loopBody, hp, hc, checkbox]
        · simp [loopBody, hp, hc, checkbox]
      · intro y hy _ hpid
        exact hnd.1 (List.mem_map.2 ⟨y, hy, hpid⟩)
    · have hne : x.pid ≠ e.pid := fun hpid => hnd.1 (List.mem_map.2 ⟨e, hmem, hpid.symm⟩)
      rw [ih _ hnd.2 e hmem hp, loopBody_selected_other _ _ _ _ _ _ _ _ hne]

/-- A poll leaves the selection of every pid alone that no kept entry of its listing
carries. -/
theorem poll_selected_untouched (cfg : SysConf) (s : ProcState) (f : Frame) (p : Nat)
    (h : ∀ e ∈ f.entries, passesFilter e.name e.pid f.filter = true → e.pid ≠ p) :
    (renderProcessesWindow cfg s f).1.selectedPids p = s.selectedPids p := by
  unfold renderProcessesWindow
  by_cases ho : f.windowOpen = true
  · by_cases hv : f.tableVisible = true
    · simp only [ho, hv, if_true]
      exact foldl_loopBody_selected_untouched _ _ _ _ _ _ _ _ h
    · simp [ho, hv]
  · simp [ho]

/-- The selection a poll leaves for a kept entry of a listing with distinct pids. -/
theorem poll_selected_written (cfg : SysConf) (s : ProcState) (f : Frame) (e : ProcEntry)
    (hs : f.shown) (hnd : f.distinctPids) (he : e ∈ f.entries)
    (hp : passesFilter e.name e.pid f.filter = true) :
    (renderProcessesWindow cfg s f).1.selectedPids e.pid
      = checkbox (s.selectedPids e.pid) e.clicked := by
  unfold renderProcessesWindow
  simp only [hs.1, hs.2, if_true]
  exact foldl_loopBody_selected_written _ _ _ _ _ _ _ hnd e he hp

/-- A sequence of polls none of which lists the pid leaves its selection alone. -/
theorem runPolls_selected_untouched (cfg : SysConf) (p : Nat) (fs : List Frame) :
    ∀ s : ProcState, (∀ f ∈ fs, ∀ e ∈ f.entries, e.pid ≠ p) →
      (runPolls cfg s fs).selectedPids p = s.selectedPids p := by
  induction fs with
  | nil => intro s _; rfl
  | cons g gs ih =>
    intro s h
    have hstep : runPolls cfg s (g :: gs) = runPolls cfg (renderProcessesWindow cfg s g).1 gs :=
      rfl
    rw [hstep, ih _ (fun f hf => h f (List.mem_cons_of_mem _ hf))]
    exact poll_selected_untouched cfg s g p
      (fun e he _ => h g (List.mem_cons_self _ _) e he)

/-- C14, refuted as stated. Pid 42 is clicked, and thereby selected, in the poll at time 1;
it is missing from the listing at time 2; it is listed again, and not clicked, at time 3.
Its row at time 3 is drawn as selected. -/
theorem reappearing_pid_still_selected :
    (runPolls exampleConf ProcState.init
        [shownFrame "" 1000 1 [⟨42, "cat", 'S', some stat500, some 0, true⟩],
         shownFrame "" 2000 2 []]).selectedPids 42 = true ∧
    (renderProcessesWindow exampleConf (runPolls exampleConf ProcState.init
        [shownFrame "" 1000 1 [⟨42, "cat", 'S', some stat500, some 0, true⟩],
         shownFrame "" 2000 2 []])
        (shownFrame "" 3000 3 [catEntry (some stat700)])).2.map
      (fun row => (row.pid, row.isSelected)) = [(42, true)] := by
  have he : passesFilter "cat" 42 "" = true := by decide
  have hsel : (runPolls exampleConf ProcState.init
        [shownFrame "" 1000 1 [⟨42, "cat", 'S', some stat500, some 0, true⟩],
         shownFrame "" 2000 2 []]).selectedPids 42 = true := by
    simp [runPolls, renderProcessesWindow, shownFrame, loopBody, he, ProcState.init]
  refine ⟨hsel, ?_⟩
  have hent : (shownFrame "" 3000 3 [catEntry (some stat700)]).entries
      = [catEntry (some stat700)] := rfl
  have hflt : (shownFrame "" 3000 3 [catEntry (some stat700)]).filter = "" := rfl
  rw [poll_rows exampleConf _ _ (by decide) (by decide), hent, hflt]
  simp [catEntry, he, newRow, hsel]

/-- C14, amended. A pid is listed and kept in poll A, missing from the listing of every
poll of a later run B, and listed and kept again in the poll C after B. Then its entry in
`selectedPids` after B is the one left by poll A (the selection before A, inverted when the
row was clicked in A: nothing removes an entry on absence), a row is drawn for the pid in
C, and every row of the pid in C is drawn with that selection. -/
theorem reappearing_pid_selection (cfg : SysConf) (s : ProcState) (fA : Frame)
    (fBs : List Frame) (fC : Frame) (eA eC : ProcEntry)
    (hsA : fA.shown) (hndA : fA.distinctPids) (heA : eA ∈ fA.entries)
    (hpA : passesFilter eA.name eA.pid fA.filter = true)
    (hB : ∀ f ∈ fBs, ∀ e ∈ f.entries, e.pid ≠ eA.pid)
    (hsC : fC.shown) (hndC : fC.distinctPids) (heC : eC ∈ fC.entries)
    (hpC : passesFilter eC.name eC.pid fC.filter = true) (hpid : eC.pid = eA.pid) :
    (runPolls cfg s (fA :: fBs)).selectedPids eA.pid
      = checkbox (s.selectedPids eA.pid) eA.clicked ∧
    (∃ row ∈ (renderProcessesWindow cfg (runPolls cfg s (fA :: fBs)) fC).2,
      row.pid = eA.pid) ∧
    ∀ row ∈ (renderProcessesWindow cfg (runPolls cfg s (fA :: fBs)) fC).2,
      row.pid = eA.pid → row.isSelected = checkbox (s.selectedPids eA.pid) eA.clicked := by
  have hstep : runPolls cfg s (fA :: fBs)
      = runPolls cfg (renderProcessesWindow cfg s fA).1 fBs := rfl
  have hsel : (runPolls cfg s (fA :: fBs)).selectedPids eA.pid
      = checkbox (s.selectedPids eA.pid) eA.clicked := by
    rw [hstep, runPolls_selected_untouched cfg eA.pid fBs _ hB,
      poll_selected_written cfg s fA eA hsA hndA heA hpA]
  have hrow := poll_row_of_entry cfg (runPolls cfg s (fA :: fBs)) fC eC hsC hndC heC hpC
  refine ⟨hsel, ⟨_, hrow.1, hpid⟩, ?_⟩
  intro row hmem hrp
  rw [hrow.2 row hmem (hrp.trans hpid.symm), ← hsel, ← hpid]
  rfl

/-- C14, amended, at the polls of the counterexample: pid 42 clicked at time 1, missing at
time 2, listed at time 3. -/
theorem reappearing_pid_selection_witness :
    (runPolls exampleConf ProcState.init
        [shownFrame "" 1000 1 [⟨42, "cat", 'S', some stat500, some 0, true⟩],
         shownFrame "" 2000 2 []]).selectedPids 42 = true ∧
    ∀ row ∈ (renderProcessesWindow exampleConf (runPolls exampleConf ProcState.init
        [shownFrame "" 1000 1 [⟨42, "cat", 'S', some stat500, some 0, true⟩],
         shownFrame "" 2000 2 []])
        (shownFrame "" 3000 3 [catEntry (some stat700)])).2,
      row.pid = 42 → row.isSelected = true := by
  have h := reappearing_pid_selection exampleConf ProcState.init
    (shownFrame "" 1000 1 [⟨42, "cat", 'S', some stat500, some 0, true⟩])
    [shownFrame "" 2000 2 []] (shownFrame "" 3000 3 [catEntry (some stat700)])
    ⟨42, "cat", 'S', some stat500, some 0, true⟩ (catEntry (some stat700))
    (by decide) (by decide) (by simp [shownFrame]) (by decide)
    (by simp [shownFrame]) (by decide) (by decide) (by simp [shownFrame]) (by decide) rfl
  exact ⟨h.1, h.2.2⟩

/-! ## The claim about `formatBytes` -/

/-- C16. For a reading of `/proc/meminfo` with `MemTotal > 0` and
`0 <= MemAvailable <= MemTotal`, the RAM window draws the usage: the fraction of the
progress bar is `(total - available) / total` and the percentage printed is
`100 * (total - available) / total`, as exact rationals (the factor 1024 of the
conversion to MB cancels). -/
theorem ram_percent_formula (total available : Int) (ht : 0 < total)
    (h0 : 0 ≤ available) (hle : available ≤ total) :
    renderRAMWindow true (MemSource.linux total available)
      = RamView.usage (((total : ℚ) - (available : ℚ)) / (total : ℚ))
          (((total : ℚ) - (available : ℚ)) / 1024) ((total : ℚ) / 1024)
          (100 * ((total : ℚ) - (available : ℚ)) / (total : ℚ)) := by
  have htq : (0 : ℚ) < (total : ℚ) := by exact_mod_cast ht
  have hused : (0 : ℚ) ≤ (total : ℚ) - (available : ℚ) := by
    have : (available : ℚ) ≤ (total : ℚ) := by exact_mod_cast hle
    linarith
  have _h0q : (0 : ℚ) ≤ (available : ℚ) := by exact_mod_cast h0
  have hguard : ¬ ((((total - available : Int) : ℚ) / 1024 < 0) ∨ ((total : ℚ) / 1024 ≤ 0)) := by
    push_cast
    rintro (h | h)
    · have : (0 : ℚ) ≤ ((total : ℚ) - (available : ℚ)) / 1024 := by positivity
      linarith
    · have : (0 : ℚ) < (total : ℚ) / 1024 := by positivity
      linarith
  simp only [renderRAMWindow, getMemoryUsageMB, if_true, hguard, if_false]
  push_cast
  congr 1
  · field_simp
  · field_simp
    ring

/-- C16 at the example of the specification: `MemTotal = 16000000` kB and
`MemAvailable = 8000000` kB give 50 percent. -/
theorem ram_percent_formula_witness :
    renderRAMWindow true (MemSource.linux 16000000 8000000)
      = RamView.usage (1 / 2) (8000000 / 1024) (16000000 / 1024) 50 := by
  have h := ram_percent_formula 16000000 8000000 (by decide) (by decide) (by decide)
  rw [h]
  norm_num

/-- C17, refuted as stated. A failed read on Windows and on macOS gives `(0, 0)`, and so
does an empty `/proc/meminfo` on Linux; the RAM window shows each of them as not
supported, exactly as it shows the sentinel `(-1, -1)` of an unsupported platform. -/
theorem zero_reading_shown_as_unsupported :
    getMemoryUsageMB (MemSource.windows none) = (0, 0) ∧
    renderRAMWindow true (MemSource.windows none) = RamView.notSupported ∧
    renderRAMWindow true (MemSource.apple 0 none) = RamView.notSupported ∧
    getMemoryUsageMB (MemSource.linux 0 0) = (0, 0) ∧
    renderRAMWindow true (MemSource.linux 0 0) = RamView.notSupported ∧
    getMemoryUsageMB MemSource.unsupported = (-1, -1) ∧
    renderRAMWindow true MemSource.unsupported = RamView.notSupported := by
  refine ⟨rfl, ?_, ?_, ?_, ?_, rfl, ?_⟩
  · simp [renderRAMWindow, getMemoryUsageMB]
  · simp [renderRAMWindow, getMemoryUsageMB]
  · simp [getMemoryUsageMB]
  · simp [renderRAMWindow, getMemoryUsageMB]
  · simp [renderRAMWindow, getMemoryUsageMB]

/-- C17, amended. The RAM window shows a reading as not supported exactly when
`usedMB < 0` or `totalMB <= 0`: the sentinel `(-1, -1)` of an unsupported platform and the
`(0, 0)` of a failed or empty read are both shown as not supported and are not told
apart. -/
theorem ram_unsupported_iff :
    (∀ source : MemSource, renderRAMWindow true source = RamView.notSupported ↔
      ((getMemoryUsageMB source).1 < 0 ∨ (getMemoryUsageMB source).2 ≤ 0)) ∧
    (∀ source : MemSource, getMemoryUsageMB source = (0, 0) →
      renderRAMWindow true source = RamView.notSupported) ∧
    (∀ source : MemSource, getMemoryUsageMB source = (-1, -1) →
      renderRAMWindow true source = RamView.notSupported) := by
  have key : ∀ source : MemSource, renderRAMWindow true source = RamView.notSupported ↔
      ((getMemoryUsageMB source).1 < 0 ∨ (getMemoryUsageMB source).2 ≤ 0) := by
    intro source
    unfold renderRAMWindow
    simp only [if_true]
    constructor
    · intro h
      by_contra hn
      rw [if_neg hn] at h
      cases h
    · intro h
      rw [if_pos h]
  refine ⟨key, ?_, ?_⟩
  · intro source h
    rw [key, h]
    right
    norm_num
  · intro source h
    rw [key, h]
    left
    norm_num

/-- C17, amended, at a failed read on Windows and at an unsupported platform. -/
theorem ram_unsupported_iff_witness :
    renderRAMWindow true (MemSource.windows none) = RamView.notSupported ∧
    renderRAMWindow true MemSource.unsupported = RamView.notSupported :=
  ⟨ram_unsupported_iff.2.1 (MemSource.windows none) rfl,
    ram_unsupported_iff.2.2 MemSource.unsupported rfl⟩

/-- C18. For a `SwapStats` with an empty error message, drawn in an open window: when
`totalMB <= 0` the window shows the used-only text with `usedMB` and no percentage; when
`totalMB > 0` it shows the usage with the fraction `usedMB / totalMB`. A usage, and with it
a percentage, is only ever drawn when `totalMB > 0`, and its fraction is then
`usedMB / totalMB`. -/
theorem swap_percent_only_with_total (swap : SwapStats) (he : swap.errorMessage = "") :
    (swap.totalMB ≤ 0 → renderSwapWindow true swap = SwapView.usedOnly swap.usedMB) ∧
    (0 < swap.totalMB →
      renderSwapWindow true swap
        = SwapView.usage (swap.usedMB / swap.totalMB) swap.usedMB swap.totalMB
            (swap.usedMB / swap.totalMB * 100)) ∧
    ∀ (windowOpen : Bool) (p u t shown : ℚ),
      renderSwapWindow windowOpen swap = SwapView.usage p u t shown →
      0 < swap.totalMB ∧ p = swap.usedMB / swap.totalMB := by
  have hempty : swap.errorMessage.isEmpty = true := by rw [he]; rfl
  refine ⟨?_, ?_, ?_⟩
  · intro h
    simp [renderSwapWindow, hempty, h]
  · intro h
    simp [renderSwapWindow, hempty, h, not_le.2 h]
  · intro windowOpen p u t shown hview
    unfold renderSwapWindow at hview
    by_cases hw : windowOpen = true
    · by_cases ht : swap.totalMB ≤ 0
      · simp [hw, hempty, ht] at hview
      · have hpos : 0 < swap.totalMB := not_le.1 ht
        simp [hw, hempty, ht, hpos] at hview
        exact ⟨hpos, hview.1.symm⟩
    · simp [hw] at hview

/-- C18 at the example of the specification (`totalMB = 0`, `usedMB = 250`, as macOS
reports it), and at a reading with a total. -/
theorem swap_percent_only_with_total_witness :
    renderSwapWindow true ⟨250, 0, ""⟩ = SwapView.usedOnly 250 ∧
    renderSwapWindow true ⟨250, 1000, ""⟩ = SwapView.usage (1 / 4) 250 1000 25 := by
  have h0 := (swap_percent_only_with_total ⟨250, 0, ""⟩ rfl).1 (le_refl _)
  have h1 := (swap_percent_only_with_total ⟨250, 1000, ""⟩ rfl).2.1 (by norm_num)
  refine ⟨h0, ?_⟩
  rw [h1]
  norm_num

/-- C19, evaluated at a failing input. On the Windows branch, `GetDiskFreeSpaceExW`
succeeding with `totalBytes = 0` makes `renderDiskWindow` divide by `(float)total = 0`:
the fraction handed to the progress bar is not a number. The Linux and the macOS branch
guard the same situation (`used + available > 0`) and give `0.0`. -/
theorem disk_fraction_unguarded_on_windows :
    renderDiskWindow true (DiskSource.windows (some (0, 0))) = DiskView.usage none 0 0 0 ∧
    renderDiskWindow true (DiskSource.linux (some (0, 0, 0, 4096)))
      = DiskView.usage (some 0) 0 0 0 ∧
    renderDiskWindow true (DiskSource.apple (some (0, 0, 0, 4096)))
      = DiskView.usage (some 0) 0 0 0 := by
  refine ⟨?_, ?_, ?_⟩
  · simp [renderDiskWindow, floatDiv, ullMod]
  · simp [renderDiskWindow, diskUsageFromBlocks, ullMod]
  · simp [renderDiskWindow, diskUsageFromBlocks, ullMod]

/-- On the Linux and the macOS branch no zero divisor reaches the division of the disk
fraction. -/
theorem disk_fraction_guarded_from_blocks (blocks bfree bavail blockSize : Nat) :
    ∃ usedPercent usedGB totalGB availGB : ℚ,
      diskUsageFromBlocks blocks bfree bavail blockSize
        = DiskView.usage (some usedPercent) usedGB totalGB availGB := by
  unfold diskUsageFromBlocks
  simp only
  split
  · rename_i hpos
    have hne : ((((blocks * blockSize % ullMod + ullMod - bfree * blockSize % ullMod) % ullMod
        + bavail * blockSize % ullMod) % ullMod : Nat) : ℚ) ≠ 0 := by
      exact_mod_cast (Nat.pos_iff_ne_zero.1 hpos)
    exact ⟨_, _, _, _, by rw [floatDiv, if_neg hne]⟩
  · exact ⟨_, _, _, _, rfl⟩

/-! ## The claim about counter resets -/

/-- C20, refuted as stated. After a reset from idle 1000 and total 2000 to idle 50 and
total 100 (both deltas negative) `getCpuUsagePercent` returns 50; with idle going back
from 50 to 10 while the total goes from 100 to 200 it returns 140. Neither is `0.0`. -/
theorem negative_delta_not_clamped :
    (getCpuUsagePercent ⟨1000, 2000⟩ (some { idle := 50, user := 50 })).1 = 50 ∧
    (getCpuUsagePercent ⟨50, 100⟩ (some { idle := 10, user := 190 })).1 = 140 := by
  constructor
  · norm_num [getCpuUsagePercent, systemCpuPercent, CPUStats.idleTime, CPUStats.total,
      CPUStats.nonIdle]
  · norm_num [getCpuUsagePercent, systemCpuPercent, CPUStats.idleTime, CPUStats.total,
      CPUStats.nonIdle]

/-- C20, amended. For successive readings whose delta is negative (the total or the idle
sum went back) nothing is clamped: with `deltaTotal = total - lastTotal` and
`deltaIdle = idle - lastIdle`, `getCpuUsagePercent` returns `0.0` when `deltaTotal = 0`
and `100 * (deltaTotal - deltaIdle) / deltaTotal` otherwise, and the value is `0.0` exactly
when `deltaTotal = 0` or `deltaIdle = deltaTotal`. -/
theorem negative_delta_percent (s : CpuState) (stat : CPUStats)
    (hneg : stat.total < s.lastTotal ∨ stat.idleTime < s.lastIdle) :
    (getCpuUsagePercent s (some stat)).1
      = (if stat.total - s.lastTotal = 0 then 0
        else 100 * (((stat.total : ℚ) - (s.lastTotal : ℚ))
            - ((stat.idleTime : ℚ) - (s.lastIdle : ℚ)))
          / ((stat.total : ℚ) - (s.lastTotal : ℚ))) ∧
    ((getCpuUsagePercent s (some stat)).1 = 0 ↔
      (stat.total - s.lastTotal = 0 ∨
        stat.idleTime - s.lastIdle = stat.total - s.lastTotal)) := by
  have _hneg := hneg
  have hval : (getCpuUsagePercent s (some stat)).1
      = (if stat.total - s.lastTotal = 0 then 0
        else 100 * (((stat.total : ℚ) - (s.lastTotal : ℚ))
            - ((stat.idleTime : ℚ) - (s.lastIdle : ℚ)))
          / ((stat.total : ℚ) - (s.lastTotal : ℚ))) := by
    simp only [getCpuUsagePercent, systemCpuPercent]
    by_cases h : stat.total - s.lastTotal = 0
    · simp [h]
    · simp only [h, if_false]
      push_cast
      ring
  refine ⟨hval, ?_⟩
  rw [hval]
  by_cases h : stat.total - s.lastTotal = 0
  · simp [h]
  · have hq : (stat.total : ℚ) - (s.lastTotal : ℚ) ≠ 0 := by
      intro hz
      apply h
      have : ((stat.total - s.lastTotal : Int) : ℚ) = 0 := by push_cast; exact hz
      exact_mod_cast this
    simp only [h, if_false, false_or]
    rw [div_eq_zero_iff]
    constructor
    · rintro (hz | hz)
      · have h2 : ((stat.total : ℚ) - (s.lastTotal : ℚ))
            - ((stat.idleTime : ℚ) - (s.lastIdle : ℚ)) = 0 := by
          rcases mul_eq_zero.1 hz with h100 | hd
          · norm_num at h100
          · exact hd
        have h3 : ((stat.idleTime - s.lastIdle : Int) : ℚ)
            = ((stat.total - s.lastTotal : Int) : ℚ) := by
          push_cast
          linarith
        exact_mod_cast h3
      · exact absurd hz hq
    · intro heq
      left
      have h3 : ((stat.idleTime - s.lastIdle : Int) : ℚ)
          = ((stat.total - s.lastTotal : Int) : ℚ) := by rw [heq]
      push_cast at h3
      rw [h3]
      ring

/-- C20, amended, at the reset of the counterexample: idle 1000 to 50, total 2000 to
100. -/
theorem negative_delta_percent_witness :
    (getCpuUsagePercent ⟨1000, 2000⟩ (some { idle := 50, user := 50 })).1
      = 100 * (((100 : ℚ) - 2000) - ((50 : ℚ) - 1000)) / ((100 : ℚ) - 2000) := by
  have h := (negative_delta_percent ⟨1000, 2000⟩ { idle := 50, user := 50 }
    (Or.inl (by decide))).1
  rw [h]
  norm_num [CPUStats.idleTime, CPUStats.total, CPUStats.nonIdle]

/-! ## The claim about the current value of the CPU tab -/

/-- The value pushed is the last one of the history after the push. -/
theorem pushSample_getLast (history : List ℚ) (value : ℚ) :
    (pushSample history value).getLast? = some value := by
  unfold pushSample
  simp only
  split
  · rename_i hlen
    cases history with
    | nil => simp [maxSamples] at hlen
    | cons x xs => simp
  · simp

/-- C21. The value the CPU tab prints after `Current:` is the last element of
`cpuUsageHistory` as the frame leaves it when that history is not empty, and `0.0` when it
is empty. In a frame that is not paused the last element is the usage sampled and pushed in
the frame; in a paused frame the history is the one of the frame before. -/
theorem current_is_latest_sample :
    (∀ (t : CpuTab) (f : CpuTabFrame),
      (renderCpuTab t f).2.2
        = match (renderCpuTab t f).1.cpuUsageHistory.getLast? with
          | some v => v
          | none => 0) ∧
    (∀ (t : CpuTab) (f : CpuTabFrame), (renderCpuTab t f).1.cpuUsageHistory = [] →
      (renderCpuTab t f).2.2 = 0) ∧
    (∀ (t : CpuTab) (f : CpuTabFrame), (renderCpuTab t f).1.pauseCPU = false →
      (renderCpuTab t f).2.2 = (getCpuUsagePercent t.counters f.procStat).1 ∧
      (renderCpuTab t f).1.cpuUsageHistory.getLast?
        = some (getCpuUsagePercent t.counters f.procStat).1) := by
  have latest : ∀ h : List ℚ, (if h.isEmpty then (0 : ℚ) else h.getLastD 0)
      = match h.getLast? with
        | some v => v
        | none => 0 := by
    intro h
    cases h with
    | nil => rfl
    | cons x xs =>
      rw [List.getLastD_eq_getLast?]
      cases hl : (x :: xs).getLast? with
      | none => simp at hl
      | some v => simp
  refine ⟨?_, ?_, ?_⟩
  · intro t f
    exact latest _
  · intro t f hempty
    have h := latest (renderCpuTab t f).1.cpuUsageHistory
    rw [hempty] at h
    have hcur : (renderCpuTab t f).2.2
        = if (renderCpuTab t f).1.cpuUsageHistory.isEmpty then (0 : ℚ)
          else (renderCpuTab t f).1.cpuUsageHistory.getLastD 0 := rfl
    rw [hcur, hempty]
    rfl
  · intro t f hrun
    have hp : checkbox t.pauseCPU f.pauseClicked = false := hrun
    have hhist : (renderCpuTab t f).1.cpuUsageHistory
        = pushSample t.cpuUsageHistory (getCpuUsagePercent t.counters f.procStat).1 := by
      simp [renderCpuTab, hp]
    have hlast := pushSample_getLast t.cpuUsageHistory
      (getCpuUsagePercent t.counters f.procStat).1
    refine ⟨?_, by rw [hhist, hlast]⟩
    have hcur : (renderCpuTab t f).2.2
        = match (renderCpuTab t f).1.cpuUsageHistory.getLast? with
          | some v => v
          | none => 0 := latest _
    rw [hcur, hhist, hlast]

/-- C21 at concrete frames: a paused frame on the empty history prints 0; a paused frame
on the history 10, 20, 30 prints 30; an unpaused frame that samples `200 / 3` prints it. -/
theorem current_is_latest_sample_witness :
    (renderCpuTab ⟨true, [], {}⟩ ⟨false, none⟩).2.2 = 0 ∧
    (renderCpuTab ⟨true, [10, 20, 30], {}⟩ ⟨false, none⟩).2.2 = 30 ∧
    (renderCpuTab ⟨false, [10, 20, 30], ⟨1000, 2000⟩⟩
      ⟨false, some { idle := 1100, user := 1200 }⟩).2.2 = 200 / 3 := by
  refine ⟨?_, ?_, ?_⟩
  · exact current_is_latest_sample.2.1 ⟨true, [], {}⟩ ⟨false, none⟩ rfl
  · rw [current_is_latest_sample.1]
    rfl
  · rw [(current_is_latest_sample.2.2 ⟨false, [10, 20, 30], ⟨1000, 2000⟩⟩
      ⟨false, some { idle := 1100, user := 1200 }⟩ rfl).1]
    norm_num [getCpuUsagePercent, systemCpuPercent, CPUStats.idleTime, CPUStats.total,
      CPUStats.nonIdle]

/-! ## Further claims about the process table -/

/-- C22. In a poll that draws the table (distinct pids in the listing), for every listed
pid that the filter keeps: the `lastCpuTime` of its record after the poll is the tick count
read in the poll, and the `cpuPercent` stored and shown is the value the percentage
computation gives for that tick count against the `lastCpuTime` the table held before the
poll (0 for a pid without record), whether `canCalculate` holds in the poll or not. -/
theorem baseline_updated_after_percent (cfg : SysConf) (s : ProcState) (f : Frame)
    (e : ProcEntry) (hs : f.shown) (hnd : f.distinctPids) (he : e ∈ f.entries)
    (hp : passesFilter e.name e.pid f.filter = true) :
    ((renderProcessesWindow cfg s f).1.processesCpuData e.pid).map ProcInfo.lastCpuTime
      = some (readProcessCpuTime e.stat) ∧
    ((renderProcessesWindow cfg s f).1.processesCpuData e.pid).map ProcInfo.cpuPercent
      = some (procCpuPercent (canCalculate s.lastSampleTime f.now) (readProcessCpuTime e.stat)
          ((s.processesCpuData e.pid).getD {}).lastCpuTime (readTotalCpuTime f.procStat)
          s.lastTotalCpu cfg.cpuCount) ∧
    ∀ row ∈ (renderProcessesWindow cfg s f).2, row.pid = e.pid →
      row.cpuPercent = procCpuPercent (canCalculate s.lastSampleTime f.now)
        (readProcessCpuTime e.stat) ((s.processesCpuData e.pid).getD {}).lastCpuTime
        (readTotalCpuTime f.procStat) s.lastTotalCpu cfg.cpuCount := by
  have h := poll_percent_of_entry cfg s f e hs hnd he hp
  refine ⟨?_, h.1, h.2.2⟩
  rw [poll_table_written cfg s f e hs hnd he hp]
  rfl

/-- C22 at concrete polls of pid 42 with the baseline 500 and 700 ticks now: one second
after the last sample the percentage is 160, 0.1 s after it the percentage is 0, and in
both polls the baseline becomes 700. -/
theorem baseline_updated_after_percent_witness :
    (((renderProcessesWindow exampleConf ⟨catTable 500 0, fun _ => false, 1000, 1⟩
        (shownFrame "" 2000 2 [catEntry (some stat700)])).1.processesCpuData 42).map
          ProcInfo.lastCpuTime = some 700 ∧
      ((renderProcessesWindow exampleConf ⟨catTable 500 0, fun _ => false, 1000, 1⟩
        (shownFrame "" 2000 2 [catEntry (some stat700)])).1.processesCpuData 42).map
          ProcInfo.cpuPercent = some (procCpuPercent true 700 500 2000 1000 8)) ∧
    (((renderProcessesWindow exampleConf ⟨catTable 500 0, fun _ => false, 1000, 1⟩
        (shownFrame "" 2000 (11 / 10) [catEntry (some stat700)])).1.processesCpuData 42).map
          ProcInfo.lastCpuTime = some 700 ∧
      ((renderProcessesWindow exampleConf ⟨catTable 500 0, fun _ => false, 1000, 1⟩
        (shownFrame "" 2000 (11 / 10) [catEntry (some stat700)])).1.processesCpuData 42).map
          ProcInfo.cpuPercent = some (procCpuPercent false 700 500 2000 1000 8)) ∧
    procCpuPercent true 700 500 2000 1000 8 = 160 ∧
    procCpuPercent false 700 500 2000 1000 8 = 0 := by
  have h1 := baseline_updated_after_percent exampleConf
    ⟨catTable 500 0, fun _ => false, 1000, 1⟩ (shownFrame "" 2000 2 [catEntry (some stat700)])
    (catEntry (some stat700)) (by decide) (by decide) (by simp [shownFrame]) (by decide)
  have h2 := baseline_updated_after_percent exampleConf
    ⟨catTable 500 0, fun _ => false, 1000, 1⟩
    (shownFrame "" 2000 (11 / 10) [catEntry (some stat700)])
    (catEntry (some stat700)) (by decide) (by decide) (by simp [shownFrame]) (by decide)
  have hpid : (catEntry (some stat700)).pid = 42 := rfl
  have h7 : readProcessCpuTime (catEntry (some stat700)).stat = 700 :=
    readProcessCpuTime_stat700
  have ht1 : readTotalCpuTime (shownFrame "" 2000 2 [catEntry (some stat700)]).procStat
      = 2000 := by
    simp [shownFrame, readTotalCpuTime, ullMod]
  have ht2 : readTotalCpuTime
      (shownFrame "" 2000 (11 / 10) [catEntry (some stat700)]).procStat = 2000 := by
    simp [shownFrame, readTotalCpuTime, ullMod]
  have hc1 : canCalculate 1 2 = true := by simp [canCalculate]; norm_num
  have hc2 : canCalculate 1 (11 / 10) = false := by simp [canCalculate]; norm_num
  have hn1 : (shownFrame "" 2000 2 [catEntry (some stat700)]).now = 2 := rfl
  have hn2 : (shownFrame "" 2000 (11 / 10) [catEntry (some stat700)]).now = 11 / 10 := rfl
  have hcc : exampleConf.cpuCount = 8 := rfl
  have hold : ((catTable 500 0 42).getD {}).lastCpuTime = 500 := rfl
  rw [hpid, h7, ht1, hn1] at h1
  rw [hpid, h7, ht2, hn2] at h2
  simp only [hc1, hcc, hold] at h1
  simp only [hc2, hcc, hold] at h2
  refine ⟨⟨h1.1, h1.2.1⟩, ⟨h2.1, h2.2.1⟩, ?_, ?_⟩
  · norm_num [procCpuPercent]
  · simp [procCpuPercent]

/-- A non-zero percentage is only computed when recomputation is allowed. -/
theorem procCpuPercent_ne_zero (canCalc : Bool) (currCpu lastCpuTime totalCpu lastTotalCpu : Nat)
    (cpuCount : Int)
    (h : procCpuPercent canCalc currCpu lastCpuTime totalCpu lastTotalCpu cpuCount ≠ 0) :
    canCalc = true := by
  unfold procCpuPercent at h
  by_contra hc
  rw [if_neg (fun hcond => hc hcond.1)] at h
  exact h rfl

/-- Every row the loop adds with a non-zero percentage needs `canCalculate`. -/
theorem foldl_loopBody_rows_gated (cfg : SysConf) (canCalc : Bool)
    (totalCpu lastTotalCpu : Nat) (filter : String) (es : List ProcEntry) :
    ∀ acc : LoopState, (∀ row ∈ acc.rows, row.cpuPercent ≠ 0 → canCalc = true) →
      ∀ row ∈ (es.foldl (loopBody cfg canCalc totalCpu lastTotalCpu filter) acc).rows,
        row.cpuPercent ≠ 0 → canCalc = true := by
  induction es with
  | nil => intro acc hacc; simpa using hacc
  | cons x xs ih =>
    intro acc hacc
    rw [List.foldl_cons]
    apply ih
    by_cases hx : passesFilter x.name x.pid filter = true
    · intro row hrow hne
      simp only [loopBody, hx, if_true, List.mem_append, List.mem_singleton] at hrow
      rcases hrow with hrow | rfl
      · exact hacc row hrow hne
      · exact procCpuPercent_ne_zero _ _ _ _ _ _ hne
    · rw [loopBody_of_hidden _ _ _ _ _ _ _ (by simpa using hx)]
      exact hacc

/-- Every record the loop leaves with a non-zero percentage is either the record the loop
started with or needs `canCalculate`. -/
theorem foldl_loopBody_table_gated (cfg : SysConf) (canCalc : Bool)
    (totalCpu lastTotalCpu : Nat) (filter : String) (p : Nat) (r : ProcInfo)
    (es : List ProcEntry) :
    ∀ acc : LoopState,
      (es.foldl (loopBody cfg canCalc totalCpu lastTotalCpu filter) acc).table p = some r →
      r.cpuPercent ≠ 0 → canCalc = true ∨ acc.table p = some r := by
  induction es with
  | nil => intro acc h _; exact Or.inr h
  | cons x xs ih =>
    intro acc h hne
    rw [List.foldl_cons] at h
    rcases ih _ h hne with hc | hstep
    · exact Or.inl hc
    · by_cases hx : passesFilter x.name x.pid filter = true
      · by_cases hpid : x.pid = p
        · left
          subst hpid
          simp only [loopBody, hx, if_true, Function.update_same, Option.some.injEq]
            at hstep
          rw [← hstep] at hne
          exact procCpuPercent_ne_zero _ _ _ _ _ _ hne
        · right
          rw [loopBody_table_other _ _ _ _ _ _ _ _ hpid] at hstep
          exact hstep
      · right
        rw [loopBody_of_hidden _ _ _ _ _ _ _ (by simpa using hx)] at hstep
        exact hstep

theorem canCalculate_iff (lastSampleTime now : ℚ) :
    canCalculate lastSampleTime now = true
      ↔ 0 < lastSampleTime ∧ 1 / 2 ≤ now - lastSampleTime := by
  unfold canCalculate
  exact decide_eq_true_iff

/-- C23. In every poll, whatever the filter, the listing and the state are: a row is drawn
with a non-zero `cpuPercent` only if `lastSampleTime > 0` and
`now - lastSampleTime >= 0.5`, and a record that holds a non-zero `cpuPercent` after the
poll is either the record the table held before the poll or was written under the same
condition. Hence a poll that comes less than 0.5 s after a poll that drew the window shows
`0.0` in every row. -/
theorem interval_rule_always_applies (cfg : SysConf) (s : ProcState) (f : Frame) :
    (∀ row ∈ (renderProcessesWindow cfg s f).2, row.cpuPercent ≠ 0 →
      0 < s.lastSampleTime ∧ 1 / 2 ≤ f.now - s.lastSampleTime) ∧
    (∀ (p : Nat) (r : ProcInfo), (renderProcessesWindow cfg s f).1.processesCpuData p = some r →
      r.cpuPercent ≠ 0 →
      (0 < s.lastSampleTime ∧ 1 / 2 ≤ f.now - s.lastSampleTime) ∨
        s.processesCpuData p = some r) ∧
    (∀ g : Frame, f.windowOpen = true → g.now - f.now < 1 / 2 →
      ∀ row ∈ (renderProcessesWindow cfg (renderProcessesWindow cfg s f).1 g).2,
        row.cpuPercent = 0) := by
  have rows_gated : ∀ (st : ProcState) (fr : Frame),
      ∀ row ∈ (renderProcessesWindow cfg st fr).2, row.cpuPercent ≠ 0 →
        canCalculate st.lastSampleTime fr.now = true := by
    intro st fr row hrow hne
    unfold renderProcessesWindow at hrow
    by_cases ho : fr.windowOpen = true
    · by_cases hv : fr.tableVisible = true
      · simp only [ho, hv, if_true] at hrow
        exact foldl_loopBody_rows_gated _ _ _ _ _ _ _ (by simp) row hrow hne
      · simp [ho, hv] at hrow
    · simp [ho] at hrow
  refine ⟨?_, ?_, ?_⟩
  · intro row hrow hne
    exact (canCalculate_iff _ _).1 (rows_gated s f row hrow hne)
  · intro p r hrec hne
    unfold renderProcessesWindow at hrec
    by_cases ho : f.windowOpen = true
    · by_cases hv : f.tableVisible = true
      · simp only [ho, hv, if_true] at hrec
        rcases foldl_loopBody_table_gated _ _ _ _ _ p r _ _ hrec hne with hc | hold
        · exact Or.inl ((canCalculate_iff _ _).1 hc)
        · exact Or.inr hold
      · simp only [ho, hv, if_true] at hrec
        exact Or.inr hrec
    · simp only [ho] at hrec
      exact Or.inr hrec
  · intro g ho hclose row hrow
    by_contra hne
    have hc := rows_gated (renderProcessesWindow cfg s f).1 g row hrow hne
    rw [no_recomputation_within_half_second_of_a_poll cfg s f g.now ho hclose] at hc
    cases hc

/-- C23 at concrete polls: pid 42 goes from 500 to 700 ticks between a poll at time 1 and a
poll at time 1.4; every row of the second poll shows `0.0`. -/
theorem interval_rule_always_applies_witness :
    ∀ row ∈ (renderProcessesWindow exampleConf (renderProcessesWindow exampleConf
        ⟨catTable 500 0, fun _ => false, 1000, 1 / 2⟩
        (shownFrame "" 2000 1 [catEntry (some stat500)])).1
        (shownFrame "" 3000 (14 / 10) [catEntry (some stat700)])).2, row.cpuPercent = 0 :=
  (interval_rule_always_applies exampleConf ⟨catTable 500 0, fun _ => false, 1000, 1 / 2⟩
    (shownFrame "" 2000 1 [catEntry (some stat500)])).2.2
    (shownFrame "" 3000 (14 / 10) [catEntry (some stat700)]) rfl
    (by norm_num [shownFrame])

/-- The call `find` succeeds exactly when the needle is a contiguous part of the
haystack. -/
theorem stringFind_iff_infix (haystack needle : List Char) :
    stringFind haystack needle = true ↔ List.IsInfix needle haystack := by
  unfold stringFind
  rw [List.any_eq_true, List.infix_iff_prefix_suffix]
  constructor
  · rintro ⟨t, ht, hpre⟩
    exact ⟨t, List.isPrefixOf_iff_prefix.1 hpre, (List.mem_tails _ _).1 ht⟩
  · rintro ⟨t, hpre, hsuf⟩
    exact ⟨t, (List.mem_tails _ _).2 hsuf, List.isPrefixOf_iff_prefix.2 hpre⟩

/-- C24. A process passes the filter exactly when the filter is empty, or the lower-cased
filter is a contiguous part of the lower-cased name, or it is a contiguous part of the
decimal string of the pid. Hence two filters with the same lower-cased text (filters that
differ only in letter case) keep exactly the same processes. -/
theorem filter_is_case_insensitive_substring :
    (∀ (name : String) (pid : Nat) (filter : String),
      passesFilter name pid filter = true ↔
        (filter.toList = [] ∨
          List.IsInfix (filter.toList.map Char.toLower) (name.toList.map Char.toLower) ∨
          List.IsInfix (filter.toList.map Char.toLower) (Nat.repr pid).toList)) ∧
    (∀ (name : String) (pid : Nat) (filter1 filter2 : String),
      filter1.toList.map Char.toLower = filter2.toList.map Char.toLower →
      passesFilter name pid filter1 = passesFilter name pid filter2) := by
  constructor
  · intro name pid filter
    have hdigits : (Nat.repr pid).toList = Nat.toDigits 10 pid := rfl
    rw [hdigits, ← stringFind_iff_infix, ← stringFind_iff_infix]
    unfold passesFilter
    simp only
    cases hf : filter.toList with
    | nil => simp
    | cons c cs =>
      cases h1 : stringFind (name.toList.map Char.toLower) ((c :: cs).map Char.toLower) <;>
        cases h2 : stringFind (Nat.toDigits 10 pid) ((c :: cs).map Char.toLower) <;>
        simp
  · intro name pid filter1 filter2 h
    unfold passesFilter
    simp only [h]

/-- C24 at concrete filters: `FIRE` and `fire` both keep the process `Firefox` with pid
1234, and so does `23`; `zz` does not. -/
theorem filter_is_case_insensitive_substring_witness :
    passesFilter "Firefox" 1234 "FIRE" = passesFilter "Firefox" 1234 "fire" ∧
    passesFilter "Firefox" 1234 "fire" = true ∧
    passesFilter "Firefox" 1234 "23" = true ∧
    passesFilter "Firefox" 1234 "zz" = false :=
  ⟨filter_is_case_insensitive_substring.2 "Firefox" 1234 "FIRE" "fire" (by decide),
    by decide, by decide, by decide⟩

/-! ## The claims about the counters read from `/proc` -/

/-- C25. For a first line of `/proc/stat` with the eight counters `user`, `nice`,
`system`, `idle`, `iowait`, `irq`, `softirq`, `steal`, whose sum fits the counter types,
`readTotalCpuTime` returns their sum, and this is the `total` (`idle + nonIdle`) that
`getCpuUsagePercent` computes from the same counters and stores as `lastTotal`. -/
theorem same_system_total (user nice system idle iowait irq softirq steal : Nat)
    (hfit : user + nice + system + idle + iowait + irq + softirq + steal < 2 ^ 63) :
    readTotalCpuTime (some [user, nice, system, idle, iowait, irq, softirq, steal])
      = user + nice + system + idle + iowait + irq + softirq + steal ∧
    ((readTotalCpuTime (some [user, nice, system, idle, iowait, irq, softirq, steal]) : Nat)
        : Int)
      = CPUStats.total ⟨user, nice, system, idle, iowait, irq, softirq, steal⟩ ∧
    ∀ s : CpuState,
      (getCpuUsagePercent s
          (some ⟨user, nice, system, idle, iowait, irq, softirq, steal⟩)).2.lastTotal
        = ((readTotalCpuTime (some [user, nice, system, idle, iowait, irq, softirq, steal])
            : Nat) : Int) := by
  have hsum : readTotalCpuTime (some [user, nice, system, idle, iowait, irq, softirq, steal])
      = user + nice + system + idle + iowait + irq + softirq + steal := by
    have hm : ∀ x : Nat, x < 2 ^ 64 → x % ullMod = x := fun x hx => Nat.mod_eq_of_lt hx
    simp only [readTotalCpuTime, List.length_cons, List.length_nil, List.take, List.map,
      List.sum_cons, List.sum_nil]
    rw [if_pos (by norm_num), hm user (by omega), hm nice (by omega), hm system (by omega),
      hm idle (by omega), hm iowait (by omega), hm irq (by omega), hm softirq (by omega),
      hm steal (by omega), hm _ (by omega)]
    omega
  have htotal : ((user + nice + system + idle + iowait + irq + softirq + steal : Nat) : Int)
      = CPUStats.total ⟨user, nice, system, idle, iowait, irq, softirq, steal⟩ := by
    simp only [CPUStats.total, CPUStats.idleTime, CPUStats.nonIdle]
    push_cast
    ring
  refine ⟨hsum, ?_, ?_⟩
  · rw [hsum, htotal]
  · intro s
    rw [hsum, htotal]
    rfl

/-- C25 at a concrete line: the counters 900, 50, 200, 1000, 100, 20, 20, 10 give the
total 2300 on both paths. -/
theorem same_system_total_witness :
    readTotalCpuTime (some [900, 50, 200, 1000, 100, 20, 20, 10]) = 2300 ∧
    CPUStats.total ⟨900, 50, 200, 1000, 100, 20, 20, 10⟩ = 2300 := by
  have h := same_system_total 900 50 200 1000 100 20 20 10 (by norm_num)
  refine ⟨h.1, ?_⟩
  have h2 := h.2.1
  rw [h.1] at h2
  exact h2.symm

/-- The loop of `readProcessCpuTime` returns the tokens at positions 13 and 14, counted
from 0 at the first token after the name. -/
theorem scanTimes_fifteen_tokens (t0 t1 t2 t3 t4 t5 t6 t7 t8 t9 t10 t11 t12 t13 t14 : List Char)
    (rest : List (List Char)) :
    scanTimes (t0 :: t1 :: t2 :: t3 :: t4 :: t5 :: t6 :: t7 :: t8 :: t9 :: t10 :: t11 :: t12
        :: t13 :: t14 :: rest) 0 0
      = (strtoull t13, strtoull t14) := by
  simp [scanTimes]

/-- C26, evaluated at a failing input. In the line of `statOwnAndChildren` the fields 14
and 15 (`utime`, `stime`) are 300 and 200 and the fields 16 and 17 (`cutime`, `cstime`) are
7 and 5. `readProcessCpuTime` returns 12, the sum of the fields 16 and 17, and not 500: its
positions 13 and 14 are counted from the first token after the name, which is field 3. -/
theorem process_time_reads_children_fields :
    ((strtokTokens statOwnAndChildren.toList).get? 13 = some "300".toList ∧
      (strtokTokens statOwnAndChildren.toList).get? 14 = some "200".toList ∧
      (strtokTokens statOwnAndChildren.toList).get? 15 = some "7".toList ∧
      (strtokTokens statOwnAndChildren.toList).get? 16 = some "5".toList) ∧
    readProcessCpuTime (some statOwnAndChildren) = 12 ∧
    readProcessCpuTime (some statOwnAndChildren) ≠ 300 + 200 := by
  refine ⟨⟨by decide, by decide, by decide, by decide⟩, by decide, by decide⟩

/-- C27. A call of `getCpuUsagePercent` that opens `/proc/stat` leaves the counters it
read as `(lastIdle, lastTotal)`, whatever it returns (also `0.0` for `deltaTotal = 0`).
Hence the result of a call after such a call only depends on the counters of the two
calls, and it is `0.0` when both read the same idle and total. A call that cannot open the
file returns `0.0` and leaves the stored counters alone. -/
theorem cpu_baseline_committed :
    (∀ (s : CpuState) (stat : CPUStats),
      (getCpuUsagePercent s (some stat)).2 = ⟨stat.idleTime, stat.total⟩) ∧
    (∀ (s : CpuState) (first second : CPUStats),
      (getCpuUsagePercent (getCpuUsagePercent s (some first)).2 (some second)).1
        = systemCpuPercent first.idleTime first.total second.idleTime second.total) ∧
    (∀ (s : CpuState) (first second : CPUStats),
      second.idleTime = first.idleTime → second.total = first.total →
      (getCpuUsagePercent (getCpuUsagePercent s (some first)).2 (some second)).1 = 0) ∧
    (∀ s : CpuState, getCpuUsagePercent s none = (0, s)) := by
  refine ⟨fun _ _ => rfl, fun _ _ _ => rfl, ?_, fun _ => rfl⟩
  intro s first second hi ht
  have h : (getCpuUsagePercent (getCpuUsagePercent s (some first)).2 (some second)).1
      = systemCpuPercent first.idleTime first.total second.idleTime second.total := rfl
  rw [h, hi, ht]
  simp [systemCpuPercent]

/-- C27 at concrete calls: two reads of the same counters (idle 1100, total 2300) after a
state with idle 1000 and total 2000; the first returns `200 / 3`, the second `0.0`. -/
theorem cpu_baseline_committed_witness :
    (getCpuUsagePercent ⟨1000, 2000⟩ (some { idle := 1100, user := 1200 })).1 = 200 / 3 ∧
    (getCpuUsagePercent
        (getCpuUsagePercent ⟨1000, 2000⟩ (some { idle := 1100, user := 1200 })).2
        (some { idle := 1100, user := 1200 })).1 = 0 := by
  refine ⟨?_, cpu_baseline_committed.2.2.1 ⟨1000, 2000⟩ { idle := 1100, user := 1200 }
    { idle := 1100, user := 1200 } rfl rfl⟩
  norm_num [getCpuUsagePercent, systemCpuPercent, CPUStats.idleTime, CPUStats.total,
    CPUStats.nonIdle]

/-! ## The claim about the task counters -/

end SystemMonitor
